import Mathlib

/-!
Verification of the Swarm actor container (`engine/kay/src/swarm.rs`).

The Swarm stores many instances of one actor kind in a size-classed
multi-bin arena, indexes them through a versioned slot map, and dispatches
unicast and broadcast messages with reconciliation of the handler's `Fate`.

`swarm.rs` is embedded faithfully below.  Its collaborators
(`chunky::MultiArena`, `SlotMap`, `RawID`/`broadcast_instance_id`,
`Packet`/`Fate`, and the `Compact` contract) are not part of the available
sources, so they are modelled from the specification (sections 3, 4.1, 4.2
and 6 of the spec document); each such definition is marked
`Modelled from the spec`.
-/

namespace Kay

/-- Fuelled search for the smallest doubling of the capacity that fits the
size (the fuel `s` always suffices: the capacity doubles each step). -/
def sizeClassAux : Nat → Nat → Nat → Nat
  | 0, _, _ => 0
  | fuel + 1, cap, s => if s ≤ cap then 0 else sizeClassAux fuel (cap * 2) s + 1

/-- Modelled from the spec: size classes are "power-of-two classes anchored
at `A::typical_size`" (spec 4.1); class `c` holds sizes in
`(typical * 2^(c-1), typical * 2^c]`, so every size has a unique home. -/
def sizeClass (typical s : Nat) : Nat := sizeClassAux s typical s

/-- Modelled from the spec: internal pair `(bin_index, slot_in_bin)` naming a
physical position in the arena (spec section 3, `SlotIndices`). -/
structure SlotIndices where
  bin : Nat
  slot : Nat
deriving DecidableEq, Repr, Inhabited

/-- Modelled from the spec: the versioned handle (spec section 3, `RawID`),
with the fields of `id.rs` used by `swarm.rs`: `type_id`, `machine`,
`instance_id` (u32 in the source) and `version` (u8 in the source).
Machine-integer truncations are written explicitly where the source casts. -/
structure RawID where
  type_id : Nat
  machine : Nat
  instance_id : Nat
  version : Nat
deriving DecidableEq, Repr, Inhabited

/-- Modelled from the spec: `BROADCAST_INSTANCE_ID = 0xFFFF_FFFF`
(spec section 6, Reserved values); returned by `broadcast_instance_id()`
of the missing `id.rs`. -/
def broadcast_instance_id : Nat := 4294967295

/-- Modelled from the spec: the state of one actor instance together with
the observables of the `Compact` contract (spec X1):
`total_size_bytes` (current footprint), `is_still_compact` (fits its slot),
its installed `RawID`, and opaque user `payload`. -/
structure ActorState where
  id : RawID
  total_size_bytes : Nat
  is_still_compact : Bool
  payload : Nat
deriving DecidableEq, Repr, Inhabited

/-- Modelled from the spec: `chunky::MultiArena` (spec 4.1), a list of bins;
bin `b` is the densely packed run of instances of size class `b`. -/
structure Arena where
  typical : Nat
  bins : List (List ActorState)
deriving DecidableEq, Repr

/-- Modelled from the spec: `bin_len(bin_index)`, the current length of a
bin (spec 4.1). -/
def Arena.bin_len (a : Arena) (b : Nat) : Nat :=
  (a.bins.getD b []).length

/-- Modelled from the spec: `at/at_mut(indices)` read of a populated slot
(spec 4.1).  Reading an unpopulated slot is undefined behaviour in the
source; the model totalizes it with a default value, and every dispatch
path proved below stays within populated slots. -/
def Arena.get (a : Arena) (i : SlotIndices) : ActorState :=
  (a.bins.getD i.bin []).getD i.slot default

/-- Modelled from the spec: writing the instance bytes back through the
`at_mut` pointer handed to a handler (spec 4.3.2 step 3-4). -/
def Arena.setAt (a : Arena) (i : SlotIndices) (x : ActorState) : Arena :=
  { a with bins := a.bins.set i.bin ((a.bins.getD i.bin []).set i.slot x) }

/-- Modelled from the spec: `push(size)` selects the bin for the size and
appends at its tail (spec 4.1), fused with the subsequent
`Compact::compact_behind` write that `swarm.rs` performs into the returned
pointer; the pair returned is the new arena and the `SlotIndices` of the
appended slot. -/
def Arena.push (a : Arena) (x : ActorState) : Arena × SlotIndices :=
  let b := sizeClass a.typical x.total_size_bytes
  let bins1 := a.bins ++ List.replicate (b + 1 - a.bins.length) []
  let bin := bins1.getD b []
  ({ a with bins := bins1.set b (bin ++ [x]) }, ⟨b, bin.length⟩)

/-- Modelled from the spec: `swap_remove_within_bin(indices)` removes the
slot by moving the bin's last slot into its place and returns the moved-in
instance, or `none` if the removed slot was itself the last one
(spec 4.1). -/
def Arena.swap_remove_within_bin (a : Arena) (i : SlotIndices) :
    Option ActorState × Arena :=
  let bin := a.bins.getD i.bin []
  if i.slot + 1 = bin.length then
    (none, { a with bins := a.bins.set i.bin bin.dropLast })
  else
    let last := bin.getD (bin.length - 1) default
    (some last, { a with bins := a.bins.set i.bin ((bin.set i.slot last).dropLast) })

/-- Helper for the populated-bins snapshot: walk the bin list carrying the
next bin index. -/
def Arena.populatedFrom : Nat → List (List ActorState) → List (Nat × Nat)
  | _, [] => []
  | i, bin :: rest =>
    if bin.length = 0 then Arena.populatedFrom (i + 1) rest
    else (i, bin.length) :: Arena.populatedFrom (i + 1) rest

/-- Modelled from the spec: `populated_bin_indices_and_lens()`, the snapshot
of bins and their lengths at the moment of the call (spec 4.1). -/
def Arena.populated_bin_indices_and_lens (a : Arena) : List (Nat × Nat) :=
  Arena.populatedFrom 0 a.bins

/-- Total number of instances stored in the arena (the `Σ bin_lens` of
spec P1/I3). -/
def Arena.sumBinLens (a : Arena) : Nat :=
  (a.bins.map List.length).sum

/-- The ids of all instances currently stored in the arena, in bin order. -/
def Arena.allIds (a : Arena) : List RawID :=
  (a.bins.map (fun bin => bin.map (fun x => x.id))).flatten

/-- Modelled from the spec: one slot-map entry, either free (`occ = none`)
or occupied, with its version tag (spec section 3, Slot-map entry). -/
structure SlotEntry where
  occ : Option SlotIndices
  version : Nat
deriving DecidableEq, Repr, Inhabited

/-- Modelled from the spec: the slot map (spec 4.2), a grow-only vector of
entries plus a LIFO free list (the spec's free list threaded through free
entries, represented as the equivalent stack of free keys). -/
structure SlotMap where
  entries : List SlotEntry
  freeList : List Nat
deriving DecidableEq, Repr

/-- Modelled from the spec: `allocate_id()` pops the free list or allocates
a new entry; returns the reused/new key and the current version
(spec 4.2). -/
def SlotMap.allocate_id (m : SlotMap) : (Nat × Nat) × SlotMap :=
  match m.freeList with
  | i :: rest => ((i, (m.entries.getD i default).version), { m with freeList := rest })
  | [] => ((m.entries.length, 0), { m with entries := m.entries ++ [⟨none, 0⟩] })

/-- Modelled from the spec: `associate(id, indices)` sets the occupied
indices for `id`, preserving the current version (spec 4.2). -/
def SlotMap.associate (m : SlotMap) (id : Nat) (idx : SlotIndices) : SlotMap :=
  { m with entries := m.entries.set id ⟨some idx, (m.entries.getD id default).version⟩ }

/-- Modelled from the spec: `indices_of(id, version)`, strict lookup
returning `none` on version mismatch or if freed (spec 4.2). -/
def SlotMap.indices_of (m : SlotMap) (id version : Nat) : Option SlotIndices :=
  let e := m.entries.getD id default
  match e.occ with
  | some idx => if e.version = version then some idx else none
  | none => none

/-- Modelled from the spec: `indices_of_no_version_check(id)`, internal
lookup used on paths where the version has already been validated
(spec 4.2). -/
def SlotMap.indices_of_no_version_check (m : SlotMap) (id : Nat) : SlotIndices :=
  (m.entries.getD id default).occ.getD default

/-- Modelled from the spec: `free(id, version)` bumps the entry's version
(8-bit wrap, spec I4) and pushes the key onto the free list; behaviour on a
version mismatch is undefined by contract, so the stored version is bumped
unconditionally (spec 4.2). -/
def SlotMap.free (m : SlotMap) (id _version : Nat) : SlotMap :=
  { entries := m.entries.set id ⟨none, ((m.entries.getD id default).version + 1) % 256⟩,
    freeList := id :: m.freeList }

/-- The number of occupied slot-map entries (spec P1/I3). -/
def SlotMap.occupiedCount (m : SlotMap) : Nat :=
  (m.entries.filter (fun e => e.occ.isSome)).length

/-- Handler fate, `messaging.rs` (modelled from the spec: `Live` or
`Die`). -/
inductive Fate where
  | Live : Fate
  | Die : Fate
deriving DecidableEq, Repr

/-- Opaque message body. -/
abbrev Msg := Nat

/-- Opaque world context: the Swarm passes it through untouched (spec X2). -/
abbrev World := Nat

/-- Modelled from the spec: a message packet, recipient id plus message
body (`messaging.rs`). -/
structure Packet where
  recipient_id : RawID
  message : Msg
deriving DecidableEq, Repr

/-- The handler type `Fn(&M, &mut A, &mut World) -> Fate`: it receives the
message, the instance and the world, and returns the fate together with
the mutated instance and world. -/
abbrev Handler := Msg → ActorState → World → Fate × ActorState × World

/-- The Swarm state: arena of instances, slot map, and instance counter
(`swarm.rs`, `struct Swarm`). -/
structure Swarm where
  instances : Arena
  slot_map : SlotMap
  n_instances : Nat
deriving DecidableEq, Repr

/-- `Swarm::allocate_id` (`swarm.rs` lines 57-65): allocate a slot-map key
and build a `RawID` from the template's `type_id` and `machine` plus the
allocated key and version; `usize as u32` and `as u8` casts are the
explicit truncations. -/
def Swarm.allocate_id (sw : Swarm) (base : RawID) : RawID × Swarm :=
  match sw.slot_map.allocate_id with
  | ((instance_id, version), sm) =>
    (⟨base.type_id, base.machine, instance_id % 2 ^ 32, version % 2 ^ 8⟩,
     { sw with slot_map := sm })

/-- Modelled from the spec: the value written by `Compact::compact_behind`
followed by `set_id` (spec X1 and 4.3.2): a flattened copy of the instance,
compact in its fresh slot, with the given id installed. -/
def emplace (a : ActorState) (id : RawID) : ActorState :=
  { a with id := id, is_still_compact := true }

theorem emplace_total_size_bytes (a : ActorState) (id : RawID) :
    (emplace a id).total_size_bytes = a.total_size_bytes := rfl

theorem emplace_id (a : ActorState) (id : RawID) : (emplace a id).id = id := rfl

/-- `Swarm::add_with_id` (`swarm.rs` lines 75-87): push a slot for the
instance's current size, associate the slot map, emplace the bytes via
`Compact::compact_behind` (after which the copy is compact) and install the
id via `set_id`. -/
def Swarm.add_with_id (sw : Swarm) (a : ActorState) (id : RawID) : Swarm :=
  match sw.instances.push (emplace a id) with
  | (arena1, index) =>
    { sw with
      instances := arena1,
      slot_map := sw.slot_map.associate id.instance_id index }

/-- `Swarm::add_manually_with_id` (`swarm.rs` lines 69-72). -/
def Swarm.add_manually_with_id (sw : Swarm) (a : ActorState) (id : RawID) : Swarm :=
  let sw1 := sw.add_with_id a id
  { sw1 with n_instances := sw1.n_instances + 1 }

/-- `Swarm::swap_remove` (`swarm.rs` lines 89-105): swap-remove within the
bin and re-associate the swapped-in survivor's id, when there is one. -/
def Swarm.swap_remove (sw : Swarm) (i : SlotIndices) : Swarm :=
  match sw.instances.swap_remove_within_bin i with
  | (some moved, arena1) =>
    { sw with
      instances := arena1,
      slot_map := sw.slot_map.associate moved.id.instance_id i }
  | (none, arena1) => { sw with instances := arena1 }

/-- `Swarm::remove_at_index` (`swarm.rs` lines 114-126): drop the instance
in place (no observable effect in the model), swap-remove the slot, free
the recipient's key, decrement `n_instances`. -/
def Swarm.remove_at_index (sw : Swarm) (i : SlotIndices) (id : RawID) : Swarm :=
  let sw1 := sw.swap_remove i
  { sw1 with
    slot_map := sw1.slot_map.free id.instance_id id.version,
    n_instances := sw1.n_instances - 1 }

/-- `Swarm::remove` (`swarm.rs` lines 107-112). -/
def Swarm.remove (sw : Swarm) (id : RawID) : Swarm :=
  sw.remove_at_index (sw.slot_map.indices_of_no_version_check id.instance_id) id

/-- `Swarm::resize_at_index` (`swarm.rs` lines 133-137): re-emplace the
instance (read from the old slot) via `add_with_id`, then swap-remove the
old slot. -/
def Swarm.resize_at_index (sw : Swarm) (old_i : SlotIndices) : Swarm :=
  let old_actor := sw.instances.get old_i
  (sw.add_with_id old_actor old_actor.id).swap_remove old_i

/-- `Swarm::resize` (`swarm.rs` lines 128-131). -/
def Swarm.resize (sw : Swarm) (id : Nat) : Swarm :=
  sw.resize_at_index (sw.slot_map.indices_of_no_version_check id)

/-- `Swarm::receive_instance` (`swarm.rs` lines 139-175).  The result is
the new swarm, the new world, the delivery log (ids of instances the
handler was invoked on) and whether the wrong-version diagnostic was
printed. -/
def Swarm.receive_instance (sw : Swarm) (p : Packet) (h : Handler) (w : World) :
    Swarm × World × List RawID × Bool :=
  match sw.slot_map.indices_of p.recipient_id.instance_id p.recipient_id.version with
  | none => (sw, w, [], true)
  | some index =>
    let actor := sw.instances.get index
    match h p.message actor w with
    | (fate, a1, w1) =>
      let sw1 := { sw with instances := sw.instances.setAt index a1 }
      match fate with
      | Fate.Live =>
        if a1.is_still_compact then (sw1, w1, [actor.id], false)
        else (sw1.resize p.recipient_id.instance_id, w1, [actor.id], false)
      | Fate.Die => (sw1.remove p.recipient_id, w1, [actor.id], false)

/-- One iteration of the broadcast loop body (`swarm.rs` lines 200-243):
invoke the handler at `(b, slot)`, reconcile the fate, and compute the next
`slot` and `index_after_last_recipient` from the neighbor-swap test
`bin_len(bin_index) < index_after_last_recipient`.  Returns the new swarm,
world, the id logged for this delivery, the next slot and the next
`index_after_last_recipient`. -/
def Swarm.broadcast_step (h : Handler) (msg : Msg) (b slot k : Nat)
    (sw : Swarm) (w : World) : Swarm × World × RawID × Nat × Nat :=
  let index : SlotIndices := ⟨b, slot⟩
  let actor := sw.instances.get index
  match h msg actor w with
  | (fate, a1, w1) =>
    let sw1 := { sw with instances := sw.instances.setAt index a1 }
    match fate with
    | Fate.Live =>
      if a1.is_still_compact then (sw1, w1, actor.id, slot + 1, k)
      else
        let sw2 := sw1.resize_at_index index
        if sw2.instances.bin_len b < k then (sw2, w1, actor.id, slot, k - 1)
        else (sw2, w1, actor.id, slot + 1, k)
    | Fate.Die =>
      let sw2 := sw1.remove_at_index index a1.id
      if sw2.instances.bin_len b < k then (sw2, w1, actor.id, slot, k - 1)
      else (sw2, w1, actor.id, slot + 1, k)

/-- The per-bin broadcast loop (`swarm.rs` lines 196-244): exactly
`recipients_todo` iterations (the fuel), threading `slot` and
`index_after_last_recipient`. -/
def Swarm.broadcastBin (h : Handler) (msg : Msg) (b : Nat) :
    Nat → Nat → Nat → Swarm → World → Swarm × World × List RawID
  | 0, _, _, sw, w => (sw, w, [])
  | fuel + 1, slot, k, sw, w =>
    match Swarm.broadcast_step h msg b slot k sw w with
    | (sw2, w2, lid, slot', k') =>
      match Swarm.broadcastBin h msg b fuel slot' k' sw2 w2 with
      | (sw3, w3, log) => (sw3, w3, lid :: log)

/-- The broadcast walk over the snapshot list of `(bin, recipients_todo)`
pairs (`swarm.rs` lines 193-245). -/
def Swarm.broadcastBins (h : Handler) (msg : Msg) :
    List (Nat × Nat) → Swarm → World → Swarm × World × List RawID
  | [], sw, w => (sw, w, [])
  | (b, n) :: rest, sw, w =>
    match Swarm.broadcastBin h msg b n 0 n sw w with
    | (sw1, w1, log1) =>
      match Swarm.broadcastBins h msg rest sw1 w1 with
      | (sw2, w2, log2) => (sw2, w2, log1 ++ log2)

/-- `Swarm::receive_broadcast` (`swarm.rs` lines 177-246): snapshot the
populated bins and lengths, then walk each snapshot bin. -/
def Swarm.receive_broadcast (sw : Swarm) (p : Packet) (h : Handler) (w : World) :
    Swarm × World × List RawID :=
  Swarm.broadcastBins h p.message
    (sw.instances.populated_bin_indices_and_lens) sw w

/-- `Swarm::dispatch_packet` (`swarm.rs` lines 248-261): route to the
broadcast protocol iff the recipient instance id is the reserved broadcast
id, else to the unicast protocol. -/
def Swarm.dispatch_packet (sw : Swarm) (p : Packet) (h : Handler) (w : World) :
    Swarm × World × List RawID × Bool :=
  if p.recipient_id.instance_id = broadcast_instance_id then
    match sw.receive_broadcast p h w with
    | (sw1, w1, log) => (sw1, w1, log, false)
  else
    sw.receive_instance p h w

/-- `InstancesCountable::instance_count` (`swarm.rs` lines 265-269). -/
def Swarm.instance_count (sw : Swarm) : Nat := sw.n_instances

/-! ### List helpers -/

theorem set_getElem_id {α : Type} (l : List α) (i : Nat)
    (h : i < l.length) : l.set i l[i] = l := by
  apply List.ext_getElem
  · simp
  · intro j h1 h2
    rw [List.getElem_set]
    split
    · subst ‹i = j›; rfl
    · rfl

theorem set_getD_self {α : Type} (l : List α) (i : Nat) (d : α)
    (h : i < l.length) : l.set i (l.getD i d) = l := by
  rw [List.getD_eq_getElem l d h]
  exact set_getElem_id l i h

theorem getD_append_left {α : Type} (l t : List α) (i : Nat) (d : α)
    (h : i < l.length) : (l ++ t).getD i d = l.getD i d := by
  rw [List.getD_eq_getElem?_getD, List.getD_eq_getElem?_getD,
    List.getElem?_append_left h]

/-- A bin with a populated slot is an in-range bin. -/
theorem Arena.bin_lt_of_len_pos (a : Arena) (b : Nat)
    (h : 0 < a.bin_len b) : b < a.bins.length := by
  by_contra hb
  rw [Arena.bin_len, List.getD_eq_default] at h
  · simp at h
  · omega

/-- Writing back the value already stored at a populated slot leaves the
arena unchanged. -/
theorem Arena.setAt_get_self (a : Arena) (i : SlotIndices)
    (h : i.slot < a.bin_len i.bin) : a.setAt i (a.get i) = a := by
  have hb : i.bin < a.bins.length := a.bin_lt_of_len_pos i.bin (Nat.lt_of_le_of_lt (Nat.zero_le _) h)
  rw [Arena.setAt, Arena.get, set_getD_self _ _ _ h, set_getD_self _ _ _ hb]

/-! ### C3, C7, C8, C9: unicast rejection, routing, frame effect, id allocation -/

/-- C3: a unicast dispatch whose recipient id does not map to an occupied
slot-map entry with a matching version invokes no handler, emits the
diagnostic, drops the message without an error, and leaves the whole Swarm
state (arena, slot map, `n_instances`) unchanged. -/
theorem unicast_stale_recipient_dropped (sw : Swarm) (p : Packet) (h : Handler)
    (w : World)
    (hb : p.recipient_id.instance_id ≠ broadcast_instance_id)
    (hnone : sw.slot_map.indices_of p.recipient_id.instance_id
      p.recipient_id.version = none) :
    sw.dispatch_packet p h w = (sw, w, [], true) := by
  rw [Swarm.dispatch_packet, if_neg hb, Swarm.receive_instance, hnone]

/-- Witness for C3: a concrete stale dispatch (key freed, version bumped)
is dropped with a diagnostic and no state change. -/
theorem unicast_stale_recipient_dropped_witness :
    Swarm.dispatch_packet
      ⟨⟨16, [[⟨⟨7, 0, 0, 0⟩, 16, true, 100⟩]],⟩,
       ⟨[⟨some ⟨0, 0⟩, 1⟩], []⟩, 1⟩
      ⟨⟨7, 0, 0, 0⟩, 5⟩ (fun _ a w => (Fate.Live, a, w)) 0 =
      (⟨⟨16, [[⟨⟨7, 0, 0, 0⟩, 16, true, 100⟩]],⟩,
       ⟨[⟨some ⟨0, 0⟩, 1⟩], []⟩, 1⟩, 0, [], true) :=
  unicast_stale_recipient_dropped _ _ _ _ (by decide) (by decide)

/-- C7: `dispatch_packet` routes to the broadcast protocol exactly when the
recipient's `instance_id` is the reserved value `0xFFFF_FFFF = 4294967295`,
and to the unicast protocol for every other `instance_id`. -/
theorem dispatch_routes_broadcast_iff_reserved_id (sw : Swarm) (p : Packet)
    (h : Handler) (w : World) :
    sw.dispatch_packet p h w =
      if p.recipient_id.instance_id = 4294967295 then
        ((sw.receive_broadcast p h w).1, (sw.receive_broadcast p h w).2.1,
          (sw.receive_broadcast p h w).2.2, false)
      else sw.receive_instance p h w := by
  rcases hr : sw.receive_broadcast p h w with ⟨s1, w1, l1⟩
  by_cases hcnd : p.recipient_id.instance_id = 4294967295
  · simp [Swarm.dispatch_packet, broadcast_instance_id, hcnd, hr]
  · simp [Swarm.dispatch_packet, broadcast_instance_id, hcnd]

/-- C8: a unicast dispatch to a valid recipient whose handler returns
`Live` without mutating the instance, with the instance still compact,
performs no reconciliation: the resulting Swarm state is identical to the
state before the dispatch. -/
theorem unicast_noop_live_leaves_swarm_unchanged (sw : Swarm) (p : Packet)
    (h : Handler) (w w' : World) (idx : SlotIndices)
    (hidx : sw.slot_map.indices_of p.recipient_id.instance_id
      p.recipient_id.version = some idx)
    (hvalid : idx.slot < sw.instances.bin_len idx.bin)
    (hh : h p.message (sw.instances.get idx) w =
      (Fate.Live, sw.instances.get idx, w'))
    (hc : (sw.instances.get idx).is_still_compact = true) :
    (sw.receive_instance p h w).1 = sw := by
  rw [Swarm.receive_instance, hidx]
  simp only [hh, hc, if_true]
  simp [Arena.setAt_get_self sw.instances idx hvalid]

/-- Witness for C8: a concrete no-op `Live` unicast leaves the Swarm
unchanged. -/
theorem unicast_noop_live_leaves_swarm_unchanged_witness :
    (Swarm.receive_instance
      ⟨⟨16, [[⟨⟨7, 0, 0, 0⟩, 16, true, 100⟩]],⟩, ⟨[⟨some ⟨0, 0⟩, 0⟩], []⟩, 1⟩
      ⟨⟨7, 0, 0, 0⟩, 5⟩ (fun _ a w => (Fate.Live, a, w)) 3).1 =
      ⟨⟨16, [[⟨⟨7, 0, 0, 0⟩, 16, true, 100⟩]],⟩, ⟨[⟨some ⟨0, 0⟩, 0⟩], []⟩, 1⟩ :=
  unicast_noop_live_leaves_swarm_unchanged _ _ _ _ 3 ⟨0, 0⟩
    (by decide) (by decide) rfl (by decide)

/-- C9: `allocate_id(base_id)` keeps the template's `type_id` and `machine`
unchanged and takes `instance_id` and `version` exclusively from the slot
map's freshly allocated key and that key's current version (with the
source's `as u32` / `as u8` truncations); no other field of the template
influences the result. -/
theorem allocate_id_preserves_template_fields (sw : Swarm) (base : RawID) :
    sw.allocate_id base =
      (⟨base.type_id, base.machine, (sw.slot_map.allocate_id).1.1 % 2 ^ 32,
        (sw.slot_map.allocate_id).1.2 % 2 ^ 8⟩,
       { sw with slot_map := (sw.slot_map.allocate_id).2 }) := by
  rw [Swarm.allocate_id]

/-! ### C10: the broadcast invocation count is fixed by the snapshot -/

/-- The per-bin loop runs exactly `fuel` iterations, invoking the handler
once each, whatever the handler's fates, resizes or kills do. -/
theorem broadcastBin_log_length (h : Handler) (msg : Msg) (b : Nat) :
    ∀ fuel slot k sw w,
      ((Swarm.broadcastBin h msg b fuel slot k sw w).2.2).length = fuel := by
  intro fuel
  induction fuel with
  | zero => intro slot k sw w; simp [Swarm.broadcastBin]
  | succ n ih =>
    intro slot k sw w
    rw [Swarm.broadcastBin]
    rcases hs : Swarm.broadcast_step h msg b slot k sw w with ⟨sw2, w2, lid, s', k'⟩
    rcases hrec : Swarm.broadcastBin h msg b n s' k' sw2 w2 with ⟨sw3, w3, log⟩
    have hl := ih s' k' sw2 w2
    rw [hrec] at hl
    simp only [hs, hrec, List.length_cons]
    simp at hl
    omega

/-- The whole broadcast invokes the handler exactly `Σ recipients_todo`
times over the snapshot. -/
theorem broadcastBins_log_length (h : Handler) (msg : Msg) :
    ∀ snapshot (sw : Swarm) (w : World),
      ((Swarm.broadcastBins h msg snapshot sw w).2.2).length =
        (snapshot.map Prod.snd).sum := by
  intro snapshot
  induction snapshot with
  | nil => intro sw w; simp [Swarm.broadcastBins]
  | cons p rest ih =>
    intro sw w
    rcases p with ⟨b, n⟩
    rw [Swarm.broadcastBins]
    rcases h1 : Swarm.broadcastBin h msg b n 0 n sw w with ⟨sw1, w1, log1⟩
    rcases h2 : Swarm.broadcastBins h msg rest sw1 w1 with ⟨sw2, w2, log2⟩
    have hl1 := broadcastBin_log_length h msg b n 0 n sw w
    rw [h1] at hl1
    have hl2 := ih sw1 w1
    rw [h2] at hl2
    simp at hl1 hl2
    simp only [h1, h2, List.length_append, List.map_cons, List.sum_cons]
    omega

/-- C10: in every broadcast the handler is invoked exactly
`Σ recipients_todo` times, where `recipients_todo` are the per-bin lengths
captured in the start-of-broadcast snapshot; the count is independent of
the fates returned and of resizes or kills during the broadcast (the
statement quantifies over every handler), and a handler can only ever kill
the instance currently at the cursor, so no kill reduces the count. -/
theorem broadcast_invocation_count_fixed_by_snapshot (sw : Swarm) (p : Packet)
    (h : Handler) (w : World) :
    ((sw.receive_broadcast p h w).2.2).length =
      ((sw.instances.populated_bin_indices_and_lens).map Prod.snd).sum :=
  broadcastBins_log_length h p.message _ sw w

/-! ### Concrete fixtures for witnesses -/

/-- A concrete actor of a given id and size. -/
def exActor (i sz : Nat) : ActorState := ⟨⟨7, 0, i, 0⟩, sz, true, 100 + i⟩

/-- A concrete well-formed swarm with three instances in bin 0. -/
def exSwarm3 : Swarm :=
  { instances := { typical := 16, bins := [[exActor 0 16, exActor 1 16, exActor 2 16]] },
    slot_map := { entries := [⟨some ⟨0, 0⟩, 0⟩, ⟨some ⟨0, 1⟩, 0⟩, ⟨some ⟨0, 2⟩, 0⟩],
                  freeList := [] },
    n_instances := 3 }

/-- A handler that always kills its receiver. -/
def exDieHandler : Handler := fun _ a w => (Fate.Die, a, w)

/-- A handler that always returns `Live` and leaves everything unchanged. -/
def exLiveHandler : Handler := fun _ a w => (Fate.Live, a, w)

/-- A handler that grows its receiver out of size class 0 (size 16 → 20,
no longer compact). -/
def exGrowHandler : Handler := fun _ a w =>
  (Fate.Live, { a with total_size_bytes := 20, is_still_compact := false }, w)

/-- A concrete well-formed swarm with one instance and one free slot-map
entry. -/
def exSwarm1F : Swarm :=
  { instances := { typical := 16, bins := [[exActor 0 16]] },
    slot_map := { entries := [⟨some ⟨0, 0⟩, 0⟩, ⟨none, 0⟩], freeList := [1] },
    n_instances := 1 }

/-! ### Arena-effect helpers for the broadcast proofs -/

/-- The actor list stored in bin `b` (empty for a bin that does not
exist). -/
def Arena.binList (a : Arena) (b : Nat) : List ActorState := a.bins.getD b []

/-- The contiguous segment of a bin between two cursor positions. -/
def seg (l : List ActorState) (s k : Nat) : List ActorState :=
  (l.drop s).take (k - s)

theorem Arena.bin_len_eq_binList (a : Arena) (b : Nat) :
    a.bin_len b = (a.binList b).length := rfl

theorem Arena.get_eq_binList (a : Arena) (i : SlotIndices) :
    a.get i = (a.binList i.bin).getD i.slot default := rfl

theorem getD_set_self {α : Type} (l : List α) (i : Nat) (v d : α)
    (h : i < l.length) : (l.set i v).getD i d = v := by
  rw [List.getD_eq_getElem _ _ (by simpa using h)]
  exact List.getElem_set_self _

theorem getD_set_ne {α : Type} (l : List α) (i j : Nat) (v d : α)
    (h : j ≠ i) : (l.set i v).getD j d = l.getD j d := by
  rw [List.getD_eq_getElem?_getD, List.getD_eq_getElem?_getD,
    List.getElem?_set_ne (Ne.symm h)]

theorem getD_pad {α : Type} (l : List (List α)) (m i : Nat) :
    (l ++ List.replicate m ([] : List α)).getD i [] = l.getD i [] := by
  rcases Nat.lt_or_ge i l.length with h | h
  · exact getD_append_left _ _ _ _ h
  · rw [List.getD_eq_default _ _ h, List.getD_eq_getElem?_getD,
      List.getElem?_append_right h, List.getElem?_replicate]
    split <;> rfl

theorem getD_append_last {α : Type} (l : List α) (x d : α) :
    (l ++ [x]).getD l.length d = x := by
  rw [List.getD_eq_getElem?_getD, List.getElem?_append_right (Nat.le_refl _)]
  simp

theorem set_append_left {α : Type} (l t : List α) (i : Nat) (v : α)
    (h : i < l.length) : (l ++ t).set i v = l.set i v ++ t := by
  rw [List.set_append, if_pos h]

/-- Dropping from a list set strictly below the drop point. -/
theorem drop_set_of_lt {α : Type} (l : List α) (i j : Nat) (v : α)
    (h : i < j) : (l.set i v).drop j = l.drop j := by
  rw [List.drop_set, if_pos h]

theorem seg_of_le (l : List ActorState) (s k : Nat) (h : k ≤ s) :
    seg l s k = [] := by
  rw [seg, Nat.sub_eq_zero_of_le h, List.take_zero]

theorem seg_cons (l : List ActorState) (s k : Nat) (hs : s < k)
    (hk : k ≤ l.length) :
    seg l s k = l.getD s default :: seg l (s + 1) k := by
  have hsl : s < l.length := Nat.lt_of_lt_of_le hs hk
  rw [seg, seg, List.getD_eq_getElem _ _ hsl]
  rw [List.drop_eq_getElem_cons hsl]
  have : k - s = (k - (s + 1)) + 1 := by omega
  rw [this, List.take_succ_cons]

theorem seg_set_lt (l : List ActorState) (i s k : Nat) (v : ActorState)
    (h : i < s) : seg (l.set i v) s k = seg l s k := by
  rw [seg, seg, drop_set_of_lt _ _ _ _ h]

theorem seg_take (l : List ActorState) (m s k : Nat) (h : k ≤ m) :
    seg (l.take m) s k = seg l s k := by
  rw [seg, seg, List.drop_take, List.take_take]
  congr 1
  omega

theorem seg_snoc_eq (l : List ActorState) (s k : Nat) (hs : s ≤ k)
    (hk : k < l.length) :
    seg l s (k + 1) = seg l s k ++ [l.getD k default] := by
  rw [seg, seg, List.getD_eq_getElem _ _ hk]
  have h1 : k + 1 - s = (k - s) + 1 := by omega
  rw [h1, List.take_succ]
  congr 1
  have h2 : (List.drop s l)[k - s]? = some l[k] := by
    rw [List.getElem?_drop]
    have : s + (k - s) = k := by omega
    rw [this, List.getElem?_eq_getElem hk]
  rw [h2]
  rfl

/-! ### Effect of the swarm operations on individual bins -/

theorem Arena.binList_setAt_same (a : Arena) (i : SlotIndices) (x : ActorState) :
    (a.setAt i x).binList i.bin = (a.binList i.bin).set i.slot x := by
  rw [Arena.setAt, Arena.binList, Arena.binList]
  rcases Nat.lt_or_ge i.bin a.bins.length with h | h
  · exact getD_set_self _ _ _ _ h
  · rw [List.set_eq_of_length_le (by simpa using h)]
    rw [List.getD_eq_default _ _ h, List.set_nil]

theorem Arena.binList_setAt_other (a : Arena) (i : SlotIndices) (x : ActorState)
    (b' : Nat) (h : b' ≠ i.bin) : (a.setAt i x).binList b' = a.binList b' :=
  getD_set_ne _ _ _ _ _ h

theorem Arena.setAt_typical (a : Arena) (i : SlotIndices) (x : ActorState) :
    (a.setAt i x).typical = a.typical := rfl

theorem Arena.swap_remove_binList_same (a : Arena) (i : SlotIndices) :
    ((a.swap_remove_within_bin i).2).binList i.bin =
      if i.slot + 1 = (a.binList i.bin).length
      then (a.binList i.bin).dropLast
      else (((a.binList i.bin).set i.slot
        ((a.binList i.bin).getD ((a.binList i.bin).length - 1) default)).dropLast) := by
  simp only [Arena.binList]
  rw [Arena.swap_remove_within_bin]
  rcases Nat.lt_or_ge i.bin a.bins.length with h | h
  · split
    · exact getD_set_self _ _ _ _ h
    · exact getD_set_self _ _ _ _ h
  · have hempty := List.getD_eq_default a.bins ([] : List ActorState) h
    split
    · next hc =>
      rw [hempty] at hc
      simp at hc
    · simp only
      rw [List.set_eq_of_length_le h, List.getD_eq_default _ _ h]
      simp

theorem Arena.swap_remove_binList_other (a : Arena) (i : SlotIndices) (b' : Nat)
    (h : b' ≠ i.bin) :
    ((a.swap_remove_within_bin i).2).binList b' = a.binList b' := by
  rw [Arena.swap_remove_within_bin]
  split <;> exact getD_set_ne _ _ _ _ _ h

theorem Arena.swap_remove_typical (a : Arena) (i : SlotIndices) :
    ((a.swap_remove_within_bin i).2).typical = a.typical := by
  rw [Arena.swap_remove_within_bin]
  split <;> rfl

theorem Arena.push_bins1_len (a : Arena) (c : Nat) :
    c < (a.bins ++ List.replicate (c + 1 - a.bins.length) ([] : List ActorState)).length := by
  rw [List.length_append, List.length_replicate]
  omega

theorem Arena.push_fst_binList_same (a : Arena) (x : ActorState) :
    ((a.push x).1).binList (sizeClass a.typical x.total_size_bytes) =
      a.binList (sizeClass a.typical x.total_size_bytes) ++ [x] := by
  rw [Arena.push, Arena.binList, Arena.binList]
  simp only
  rw [getD_set_self _ _ _ _ (Arena.push_bins1_len a _), getD_pad]

theorem Arena.push_fst_binList_other (a : Arena) (x : ActorState) (b' : Nat)
    (h : b' ≠ sizeClass a.typical x.total_size_bytes) :
    ((a.push x).1).binList b' = a.binList b' := by
  rw [Arena.push, Arena.binList, Arena.binList]
  simp only
  rw [getD_set_ne _ _ _ _ _ h, getD_pad]

theorem Arena.push_snd (a : Arena) (x : ActorState) :
    (a.push x).2 = ⟨sizeClass a.typical x.total_size_bytes,
      (a.binList (sizeClass a.typical x.total_size_bytes)).length⟩ := by
  rw [Arena.push]
  simp only
  rw [getD_pad]
  rfl

theorem Arena.push_typical (a : Arena) (x : ActorState) :
    ((a.push x).1).typical = a.typical := rfl

theorem Swarm.swap_remove_instances (sw : Swarm) (i : SlotIndices) :
    (sw.swap_remove i).instances = (sw.instances.swap_remove_within_bin i).2 := by
  rw [Swarm.swap_remove]
  rcases hsw : sw.instances.swap_remove_within_bin i with ⟨mv, ar⟩
  cases mv <;> simp

theorem Swarm.add_with_id_instances (sw : Swarm) (a : ActorState) (id : RawID) :
    (sw.add_with_id a id).instances = (sw.instances.push (emplace a id)).1 := rfl

theorem Swarm.resize_at_index_instances (sw : Swarm) (old_i : SlotIndices) :
    (sw.resize_at_index old_i).instances =
      ((sw.instances.push (emplace (sw.instances.get old_i)
        (sw.instances.get old_i).id)).1.swap_remove_within_bin old_i).2 := by
  rw [Swarm.resize_at_index, Swarm.swap_remove_instances, Swarm.add_with_id_instances]

theorem Swarm.remove_at_index_instances (sw : Swarm) (i : SlotIndices) (id : RawID) :
    (sw.remove_at_index i id).instances = (sw.instances.swap_remove_within_bin i).2 := by
  rw [Swarm.remove_at_index]
  simp only
  rw [Swarm.swap_remove_instances]

/-- Core list-level analysis of a swap-remove at the cursor slot `s` of a
bin whose first `k` positions (beyond `s`) hold the undelivered originals:
either the tail pulled down is an original (`bin_len < k` afterwards) and
revisiting slot `s` with boundary `k - 1` preserves the multiset of
undelivered originals, or the pulled-down element is a newcomer and the
cursor may skip it. -/
theorem swap_bin_analysis (L : List ActorState) (a1 : ActorState) (s k : Nat)
    (hs : s < k) (hk : k ≤ L.length) :
    ((if s + 1 = (L.set s a1).length then (L.set s a1).dropLast
      else (((L.set s a1).set s
        ((L.set s a1).getD ((L.set s a1).length - 1) default)).dropLast)).length
        = L.length - 1) ∧
    ((L.length - 1 < k ∧ k - 1 ≤ L.length - 1 ∧
      (seg (if s + 1 = (L.set s a1).length then (L.set s a1).dropLast
        else (((L.set s a1).set s
          ((L.set s a1).getD ((L.set s a1).length - 1) default)).dropLast))
        s (k - 1)).Perm (seg L (s + 1) k)) ∨
     (¬ L.length - 1 < k ∧ k ≤ L.length - 1 ∧
      seg (if s + 1 = (L.set s a1).length then (L.set s a1).dropLast
        else (((L.set s a1).set s
          ((L.set s a1).getD ((L.set s a1).length - 1) default)).dropLast))
        (s + 1) k = seg L (s + 1) k)) := by
  have hsn : s < L.length := Nat.lt_of_lt_of_le hs hk
  by_cases hn : s + 1 = (L.set s a1).length
  · rw [if_pos hn]
    rw [List.length_set] at hn
    have hkn : k = L.length := by omega
    constructor
    · rw [List.length_dropLast, List.length_set]
    · left
      refine ⟨by omega, by omega, ?_⟩
      have h1 : seg ((L.set s a1).dropLast) s (k - 1) = [] :=
        seg_of_le _ _ _ (by omega)
      have h2 : seg L (s + 1) k = [] := seg_of_le _ _ _ (by omega)
      rw [h1, h2]
  · rw [if_neg hn]
    rw [List.length_set] at hn
    have hsn1 : s + 1 < L.length := by
      rcases Nat.lt_or_ge (s + 1) L.length with h | h
      · exact h
      · omega
    have hlast : (L.set s a1).getD ((L.set s a1).length - 1) default =
        L.getD (L.length - 1) default := by
      rw [List.length_set]
      exact getD_set_ne _ _ _ _ _ (by omega)
    have hbin2 : ((L.set s a1).set s ((L.set s a1).getD ((L.set s a1).length - 1)
        default)).dropLast = (L.set s (L.getD (L.length - 1) default)).dropLast := by
      rw [hlast, List.set_set]
    rw [hbin2]
    have hlen2 : ((L.set s (L.getD (L.length - 1) default)).dropLast).length
        = L.length - 1 := by
      rw [List.length_dropLast, List.length_set]
    have htake : (L.set s (L.getD (L.length - 1) default)).dropLast =
        (L.set s (L.getD (L.length - 1) default)).take (L.length - 1) := by
      rw [List.dropLast_eq_take, List.length_set]
    refine ⟨hlen2, ?_⟩
    by_cases hcond : L.length - 1 < k
    · have hkn : k = L.length := by omega
      left
      refine ⟨hcond, by omega, ?_⟩
      have h1 : seg ((L.set s (L.getD (L.length - 1) default)).dropLast) s (k - 1)
          = L.getD (L.length - 1) default :: seg L (s + 1) (L.length - 1) := by
        rw [htake, seg_take _ _ _ _ (by omega)]
        rw [seg_cons _ _ _ (by omega) (by rw [List.length_set]; omega)]
        rw [getD_set_self _ _ _ _ hsn, seg_set_lt _ _ _ _ _ (Nat.lt_succ_self s)]
        rw [hkn]
      rw [h1]
      have h2 : seg L (s + 1) k = seg L (s + 1) (L.length - 1) ++
          [L.getD (L.length - 1) default] := by
        have h3 := seg_snoc_eq L (s + 1) (L.length - 1) (by omega) (by omega)
        rw [hkn]
        have h4 : L.length = (L.length - 1) + 1 := by omega
        rw [h4] at h3 ⊢
        exact h3
      rw [h2]
      exact (List.perm_append_singleton _ _).symm
    · right
      refine ⟨hcond, by omega, ?_⟩
      rw [htake, seg_take _ _ _ _ (by omega),
        seg_set_lt _ _ _ _ _ (Nat.lt_succ_self s)]

theorem Arena.binList_setAt_same2 (a : Arena) (b s : Nat) (x : ActorState) :
    (a.setAt ⟨b, s⟩ x).binList b = (a.binList b).set s x :=
  Arena.binList_setAt_same a ⟨b, s⟩ x

theorem Arena.binList_setAt_other2 (a : Arena) (b s : Nat) (x : ActorState)
    (b' : Nat) (h : b' ≠ b) : (a.setAt ⟨b, s⟩ x).binList b' = a.binList b' :=
  Arena.binList_setAt_other a ⟨b, s⟩ x b' h

theorem Arena.swap_remove_binList_same2 (a : Arena) (b s : Nat) :
    ((a.swap_remove_within_bin ⟨b, s⟩).2).binList b =
      if s + 1 = (a.binList b).length
      then (a.binList b).dropLast
      else (((a.binList b).set s
        ((a.binList b).getD ((a.binList b).length - 1) default)).dropLast) :=
  Arena.swap_remove_binList_same a ⟨b, s⟩

theorem Arena.swap_remove_binList_other2 (a : Arena) (b s : Nat) (b' : Nat)
    (h : b' ≠ b) :
    ((a.swap_remove_within_bin ⟨b, s⟩).2).binList b' = a.binList b' :=
  Arena.swap_remove_binList_other a ⟨b, s⟩ b' h

theorem Arena.get_mk (a : Arena) (b s : Nat) :
    a.get ⟨b, s⟩ = (a.binList b).getD s default := rfl

/-- The reconciliation of one broadcast iteration, characterized for the
permutation argument: the logged id is the pre-handler id at the cursor;
other bins only gain appended elements; and the cursor either advances
(newcomer or no mutation at the tail) keeping the undelivered segment
intact, or revisits the slot with the boundary decremented, preserving
the undelivered originals as a multiset. -/
theorem broadcast_step_effect (h : Handler) (msg : Msg) (b s k : Nat)
    (sw : Swarm) (w : World) (hs : s < k)
    (hk : k ≤ (sw.instances.binList b).length) :
    (Swarm.broadcast_step h msg b s k sw w).2.2.1 = (sw.instances.get ⟨b, s⟩).id ∧
    (∀ b', b' ≠ b → ∃ t,
      ((Swarm.broadcast_step h msg b s k sw w).1.instances.binList b') =
        sw.instances.binList b' ++ t) ∧
    (((Swarm.broadcast_step h msg b s k sw w).2.2.2.1 = s + 1 ∧
      (Swarm.broadcast_step h msg b s k sw w).2.2.2.2 = k ∧
      k ≤ ((Swarm.broadcast_step h msg b s k sw w).1.instances.binList b).length ∧
      seg ((Swarm.broadcast_step h msg b s k sw w).1.instances.binList b) (s + 1) k
        = seg (sw.instances.binList b) (s + 1) k) ∨
     ((Swarm.broadcast_step h msg b s k sw w).2.2.2.1 = s ∧
      (Swarm.broadcast_step h msg b s k sw w).2.2.2.2 = k - 1 ∧
      k - 1 ≤ ((Swarm.broadcast_step h msg b s k sw w).1.instances.binList b).length ∧
      (seg ((Swarm.broadcast_step h msg b s k sw w).1.instances.binList b) s (k - 1)).Perm
        (seg (sw.instances.binList b) (s + 1) k))) := by
  have hsn : s < (sw.instances.binList b).length := Nat.lt_of_lt_of_le hs hk
  rcases ht : h msg (sw.instances.get ⟨b, s⟩) w with ⟨fate, a1, w1⟩
  have hbin1 : (sw.instances.setAt ⟨b, s⟩ a1).binList b =
      (sw.instances.binList b).set s a1 := Arena.binList_setAt_same2 _ _ _ _
  cases fate with
  | Live =>
    by_cases hcomp : a1.is_still_compact = true
    · -- still compact: no reconciliation, cursor advances
      have hstep : Swarm.broadcast_step h msg b s k sw w =
          ({ sw with instances := sw.instances.setAt ⟨b, s⟩ a1 }, w1,
            (sw.instances.get ⟨b, s⟩).id, s + 1, k) := by
        simp only [Swarm.broadcast_step, ht, hcomp, if_true]
      rw [hstep]
      refine ⟨rfl, ?_, Or.inl ⟨rfl, rfl, ?_, ?_⟩⟩
      · intro b' hb'
        exact ⟨[], by rw [List.append_nil]
                      exact Arena.binList_setAt_other2 _ _ _ _ _ hb'⟩
      · show k ≤ ((sw.instances.setAt ⟨b, s⟩ a1).binList b).length
        rw [hbin1, List.length_set]
        exact hk
      · show seg ((sw.instances.setAt ⟨b, s⟩ a1).binList b) (s + 1) k =
          seg (sw.instances.binList b) (s + 1) k
        rw [hbin1, seg_set_lt _ _ _ _ _ (Nat.lt_succ_self s)]
    · -- resize: re-emplace into the size-appropriate bin, then swap-remove
      have hget1 : ({ sw with instances := sw.instances.setAt ⟨b, s⟩ a1
          } : Swarm).instances.get ⟨b, s⟩ = a1 := by
        rw [Arena.get_mk]
        show ((sw.instances.setAt ⟨b, s⟩ a1).binList b).getD s default = a1
        rw [hbin1]
        exact getD_set_self _ _ _ _ hsn
      have hstep : Swarm.broadcast_step h msg b s k sw w =
          (if (Swarm.resize_at_index { sw with
              instances := sw.instances.setAt ⟨b, s⟩ a1 } ⟨b, s⟩).instances.bin_len b < k
            then (Swarm.resize_at_index { sw with
                instances := sw.instances.setAt ⟨b, s⟩ a1 } ⟨b, s⟩, w1,
              (sw.instances.get ⟨b, s⟩).id, s, k - 1)
            else (Swarm.resize_at_index { sw with
                instances := sw.instances.setAt ⟨b, s⟩ a1 } ⟨b, s⟩, w1,
              (sw.instances.get ⟨b, s⟩).id, s + 1, k)) := by
        simp only [Swarm.broadcast_step, ht]
        rw [if_neg hcomp]
      have hinst2 : (Swarm.resize_at_index { sw with
          instances := sw.instances.setAt ⟨b, s⟩ a1 } ⟨b, s⟩).instances =
          (((sw.instances.setAt ⟨b, s⟩ a1).push
            (emplace a1 a1.id)).1.swap_remove_within_bin ⟨b, s⟩).2 := by
        rw [Swarm.resize_at_index_instances, hget1]
      have htyp1 : (sw.instances.setAt ⟨b, s⟩ a1).typical = sw.instances.typical := rfl
      have hclass : sizeClass (sw.instances.setAt ⟨b, s⟩ a1).typical
          (emplace a1 a1.id).total_size_bytes =
          sizeClass sw.instances.typical a1.total_size_bytes := rfl
      by_cases hcb : sizeClass sw.instances.typical a1.total_size_bytes = b
      · -- re-inserted into the same bin: the tail copy is swapped back into
        -- the freed slot, the bin keeps its length, the cursor advances
        have hpush : ((sw.instances.setAt ⟨b, s⟩ a1).push (emplace a1 a1.id)).1.binList b
            = ((sw.instances.binList b).set s a1) ++ [emplace a1 a1.id] := by
          have hp := Arena.push_fst_binList_same (sw.instances.setAt ⟨b, s⟩ a1)
            (emplace a1 a1.id)
          rw [hclass, hcb] at hp
          rw [hp, hbin1]
        have hbin2 : (Swarm.resize_at_index { sw with
            instances := sw.instances.setAt ⟨b, s⟩ a1 } ⟨b, s⟩).instances.binList b =
            (sw.instances.binList b).set s (emplace a1 a1.id) := by
          rw [hinst2, Arena.swap_remove_binList_same2, hpush]
          have hlenP : (((sw.instances.binList b).set s a1) ++
              [emplace a1 a1.id]).length = (sw.instances.binList b).length + 1 := by
            rw [List.length_append, List.length_set]
            rfl
          rw [if_neg (by rw [hlenP]; omega)]
          have heq : (((sw.instances.binList b).set s a1) ++
              [emplace a1 a1.id]).length - 1 =
              ((sw.instances.binList b).set s a1).length := by
            rw [hlenP, List.length_set]
            omega
          rw [heq, getD_append_last,
            set_append_left _ _ _ _ (by rw [List.length_set]; exact hsn),
            List.set_set, List.dropLast_concat]
        have hlen2 : ((Swarm.resize_at_index { sw with
            instances := sw.instances.setAt ⟨b, s⟩ a1 } ⟨b, s⟩).instances.binList b).length
            = (sw.instances.binList b).length := by
          rw [hbin2, List.length_set]
        have hcond : ¬ (Swarm.resize_at_index { sw with
            instances := sw.instances.setAt ⟨b, s⟩ a1 } ⟨b, s⟩).instances.bin_len b < k := by
          rw [Arena.bin_len_eq_binList, hlen2]
          omega
        rw [hstep, if_neg hcond]
        refine ⟨rfl, ?_, Or.inl ⟨rfl, rfl, ?_, ?_⟩⟩
        · intro b' hb'
          refine ⟨[], ?_⟩
          rw [List.append_nil]
          show (Swarm.resize_at_index { sw with
            instances := sw.instances.setAt ⟨b, s⟩ a1 } ⟨b, s⟩).instances.binList b' =
            sw.instances.binList b'
          rw [hinst2, Arena.swap_remove_binList_other2 _ _ _ _ hb']
          have hp := Arena.push_fst_binList_other (sw.instances.setAt ⟨b, s⟩ a1)
            (emplace a1 a1.id) b' (by rw [hclass, hcb]; exact hb')
          rw [hp]
          exact Arena.binList_setAt_other2 _ _ _ _ _ hb'
        · show k ≤ ((Swarm.resize_at_index { sw with
            instances := sw.instances.setAt ⟨b, s⟩ a1 } ⟨b, s⟩).instances.binList b).length
          rw [hlen2]
          exact hk
        · show seg ((Swarm.resize_at_index { sw with
            instances := sw.instances.setAt ⟨b, s⟩ a1 } ⟨b, s⟩).instances.binList b)
            (s + 1) k = seg (sw.instances.binList b) (s + 1) k
          rw [hbin2, seg_set_lt _ _ _ _ _ (Nat.lt_succ_self s)]
      · -- re-inserted into a different bin: genuine swap-remove in this bin
        have hpushb : ((sw.instances.setAt ⟨b, s⟩ a1).push (emplace a1 a1.id)).1.binList b
            = (sw.instances.binList b).set s a1 := by
          have hp := Arena.push_fst_binList_other (sw.instances.setAt ⟨b, s⟩ a1)
            (emplace a1 a1.id) b (by rw [hclass]; exact fun hx => hcb hx.symm)
          rw [hp, hbin1]
        have hbin2 : (Swarm.resize_at_index { sw with
            instances := sw.instances.setAt ⟨b, s⟩ a1 } ⟨b, s⟩).instances.binList b =
            (if s + 1 = ((sw.instances.binList b).set s a1).length
              then ((sw.instances.binList b).set s a1).dropLast
              else ((((sw.instances.binList b).set s a1).set s
                ((((sw.instances.binList b).set s a1)).getD
                  ((((sw.instances.binList b).set s a1)).length - 1) default)).dropLast)) := by
          rw [hinst2, Arena.swap_remove_binList_same2, hpushb]
        rcases swap_bin_analysis (sw.instances.binList b) a1 s k hs hk with
          ⟨hlen2, hcases⟩
        rw [← hbin2] at hlen2 hcases
        have hothers : ∀ b', b' ≠ b → ∃ t,
            (Swarm.resize_at_index { sw with
              instances := sw.instances.setAt ⟨b, s⟩ a1 } ⟨b, s⟩).instances.binList b' =
              sw.instances.binList b' ++ t := by
          intro b' hb'
          rw [hinst2, Arena.swap_remove_binList_other2 _ _ _ _ hb']
          by_cases hbc : b' = sizeClass sw.instances.typical a1.total_size_bytes
          · refine ⟨[emplace a1 a1.id], ?_⟩
            have hp := Arena.push_fst_binList_same (sw.instances.setAt ⟨b, s⟩ a1)
              (emplace a1 a1.id)
            rw [hclass] at hp
            rw [← hbc] at hp
            rw [hp, Arena.binList_setAt_other2 _ _ _ _ _ hb']
          · refine ⟨[], ?_⟩
            rw [List.append_nil]
            have hp := Arena.push_fst_binList_other (sw.instances.setAt ⟨b, s⟩ a1)
              (emplace a1 a1.id) b' (by rw [hclass]; exact hbc)
            rw [hp]
            exact Arena.binList_setAt_other2 _ _ _ _ _ hb'
        rcases hcases with ⟨hlt, hkle, hperm⟩ | ⟨hge, hkle, hseg⟩
        · have hcond : (Swarm.resize_at_index { sw with
              instances := sw.instances.setAt ⟨b, s⟩ a1 } ⟨b, s⟩).instances.bin_len b < k := by
            rw [Arena.bin_len_eq_binList, hlen2]
            exact hlt
          rw [hstep, if_pos hcond]
          exact ⟨rfl, hothers, Or.inr ⟨rfl, rfl, by rw [hlen2]; exact hkle, hperm⟩⟩
        · have hcond : ¬ (Swarm.resize_at_index { sw with
              instances := sw.instances.setAt ⟨b, s⟩ a1 } ⟨b, s⟩).instances.bin_len b < k := by
            rw [Arena.bin_len_eq_binList, hlen2]
            exact hge
          rw [hstep, if_neg hcond]
          exact ⟨rfl, hothers, Or.inl ⟨rfl, rfl, by rw [hlen2]; exact hkle, hseg⟩⟩
  | Die =>
    have hstep : Swarm.broadcast_step h msg b s k sw w =
        (if (Swarm.remove_at_index { sw with
            instances := sw.instances.setAt ⟨b, s⟩ a1 } ⟨b, s⟩ a1.id).instances.bin_len b < k
          then (Swarm.remove_at_index { sw with
              instances := sw.instances.setAt ⟨b, s⟩ a1 } ⟨b, s⟩ a1.id, w1,
            (sw.instances.get ⟨b, s⟩).id, s, k - 1)
          else (Swarm.remove_at_index { sw with
              instances := sw.instances.setAt ⟨b, s⟩ a1 } ⟨b, s⟩ a1.id, w1,
            (sw.instances.get ⟨b, s⟩).id, s + 1, k)) := by
      simp only [Swarm.broadcast_step, ht]
    have hinst2 : (Swarm.remove_at_index { sw with
        instances := sw.instances.setAt ⟨b, s⟩ a1 } ⟨b, s⟩ a1.id).instances =
        ((sw.instances.setAt ⟨b, s⟩ a1).swap_remove_within_bin ⟨b, s⟩).2 :=
      Swarm.remove_at_index_instances _ ⟨b, s⟩ a1.id
    have hbin2 : (Swarm.remove_at_index { sw with
        instances := sw.instances.setAt ⟨b, s⟩ a1 } ⟨b, s⟩ a1.id).instances.binList b =
        (if s + 1 = ((sw.instances.binList b).set s a1).length
          then ((sw.instances.binList b).set s a1).dropLast
          else ((((sw.instances.binList b).set s a1).set s
            ((((sw.instances.binList b).set s a1)).getD
              ((((sw.instances.binList b).set s a1)).length - 1) default)).dropLast)) := by
      rw [hinst2, Arena.swap_remove_binList_same2, hbin1]
    rcases swap_bin_analysis (sw.instances.binList b) a1 s k hs hk with
      ⟨hlen2, hcases⟩
    rw [← hbin2] at hlen2 hcases
    have hothers : ∀ b', b' ≠ b → ∃ t,
        (Swarm.remove_at_index { sw with
          instances := sw.instances.setAt ⟨b, s⟩ a1 } ⟨b, s⟩ a1.id).instances.binList b' =
          sw.instances.binList b' ++ t := by
      intro b' hb'
      refine ⟨[], ?_⟩
      rw [List.append_nil, hinst2, Arena.swap_remove_binList_other2 _ _ _ _ hb']
      exact Arena.binList_setAt_other2 _ _ _ _ _ hb'
    rcases hcases with ⟨hlt, hkle, hperm⟩ | ⟨hge, hkle, hseg⟩
    · have hcond : (Swarm.remove_at_index { sw with
          instances := sw.instances.setAt ⟨b, s⟩ a1 } ⟨b, s⟩ a1.id).instances.bin_len b < k := by
        rw [Arena.bin_len_eq_binList, hlen2]
        exact hlt
      rw [hstep, if_pos hcond]
      exact ⟨rfl, hothers, Or.inr ⟨rfl, rfl, by rw [hlen2]; exact hkle, hperm⟩⟩
    · have hcond : ¬ (Swarm.remove_at_index { sw with
          instances := sw.instances.setAt ⟨b, s⟩ a1 } ⟨b, s⟩ a1.id).instances.bin_len b < k := by
        rw [Arena.bin_len_eq_binList, hlen2]
        exact hge
      rw [hstep, if_neg hcond]
      exact ⟨rfl, hothers, Or.inl ⟨rfl, rfl, by rw [hlen2]; exact hkle, hseg⟩⟩


/-- The per-bin broadcast walk delivers exactly once to each instance that
occupied positions `[s, k)` of the bin when the walk reached that state
(as a multiset of logged ids), and it only ever appends to other bins. -/
theorem broadcastBin_master (h : Handler) (msg : Msg) (b : Nat) :
    ∀ fuel s k sw w, fuel = k - s →
      k ≤ (sw.instances.binList b).length →
      (((Swarm.broadcastBin h msg b fuel s k sw w).2.2).Perm
        ((seg (sw.instances.binList b) s k).map (fun x => x.id)) ∧
      (∀ b', b' ≠ b →
        ∃ t, ((Swarm.broadcastBin h msg b fuel s k sw w).1.instances.binList b')
          = sw.instances.binList b' ++ t)) := by
  intro fuel
  induction fuel with
  | zero =>
    intro s k sw w hf hk
    have hks : k ≤ s := by omega
    constructor
    · rw [Swarm.broadcastBin, seg_of_le _ _ _ hks]
      simp
    · intro b' _
      exact ⟨[], by rw [Swarm.broadcastBin, List.append_nil]⟩
  | succ n ih =>
    intro s k sw w hf hk
    have hs : s < k := by omega
    obtain ⟨hid, hoth, hcases⟩ := broadcast_step_effect h msg b s k sw w hs hk
    rcases hstep : Swarm.broadcast_step h msg b s k sw w with ⟨sw2, w2, lid, s', k'⟩
    rw [hstep] at hid hoth hcases
    dsimp only at hid hoth hcases
    have hgoal : Swarm.broadcastBin h msg b (n + 1) s k sw w =
        ((Swarm.broadcastBin h msg b n s' k' sw2 w2).1,
         (Swarm.broadcastBin h msg b n s' k' sw2 w2).2.1,
         lid :: (Swarm.broadcastBin h msg b n s' k' sw2 w2).2.2) := by
      rw [Swarm.broadcastBin, hstep]
    rcases hcases with ⟨hs', hk', hle, hseg⟩ | ⟨hs', hk', hle, hperm⟩
    · -- cursor advanced
      obtain ⟨ihperm, ihoth⟩ := ih s' k' sw2 w2 (by omega) (by rw [hk']; exact hle)
      rw [hs', hk'] at ihperm
      constructor
      · rw [hgoal, hs', hk']
        dsimp only
        rw [seg_cons _ _ _ hs hk, List.map_cons]
        have hlid : lid = ((sw.instances.binList b).getD s default).id := hid
        rw [hlid]
        exact List.Perm.cons _ (ihperm.trans (by rw [hseg]))
      · intro b' hb'
        obtain ⟨t1, ht1⟩ := hoth b' hb'
        obtain ⟨t2, ht2⟩ := ihoth b' hb'
        refine ⟨t1 ++ t2, ?_⟩
        rw [hgoal]
        dsimp only
        rw [ht2, ht1, List.append_assoc]
    · -- cursor revisits the slot
      obtain ⟨ihperm, ihoth⟩ := ih s' k' sw2 w2 (by omega) (by rw [hk']; exact hle)
      rw [hs', hk'] at ihperm
      constructor
      · rw [hgoal, hs', hk']
        dsimp only
        rw [seg_cons _ _ _ hs hk, List.map_cons]
        have hlid : lid = ((sw.instances.binList b).getD s default).id := hid
        rw [hlid]
        exact List.Perm.cons _ (ihperm.trans (hperm.map (fun x => x.id)))
      · intro b' hb'
        obtain ⟨t1, ht1⟩ := hoth b' hb'
        obtain ⟨t2, ht2⟩ := ihoth b' hb'
        refine ⟨t1 ++ t2, ?_⟩
        rw [hgoal]
        dsimp only
        rw [ht2, ht1, List.append_assoc]

/-- Every snapshot entry records an in-range bin index together with that
bin's (positive) length at snapshot time. -/
theorem populatedFrom_mem (l : List (List ActorState)) :
    ∀ i q, q ∈ Arena.populatedFrom i l →
      i ≤ q.1 ∧ q.2 = (l.getD (q.1 - i) []).length ∧ 0 < q.2 := by
  induction l with
  | nil => intro i q hq; simp [Arena.populatedFrom] at hq
  | cons bin rest ih =>
    intro i q hq
    rw [Arena.populatedFrom] at hq
    by_cases hb : bin.length = 0
    · rw [if_pos hb] at hq
      obtain ⟨h1, h2, h3⟩ := ih (i + 1) q hq
      refine ⟨by omega, ?_, h3⟩
      rw [h2]
      have hd : q.1 - i = (q.1 - (i + 1)) + 1 := by omega
      rw [hd, List.getD_cons_succ]
    · rw [if_neg hb] at hq
      rcases List.mem_cons.mp hq with rfl | hq'
      · exact ⟨Nat.le_refl _, by simp, Nat.pos_of_ne_zero hb⟩
      · obtain ⟨h1, h2, h3⟩ := ih (i + 1) q hq'
        refine ⟨by omega, ?_, h3⟩
        rw [h2]
        have hd : q.1 - i = (q.1 - (i + 1)) + 1 := by omega
        rw [hd, List.getD_cons_succ]

/-- Snapshot entries name pairwise distinct bins. -/
theorem populatedFrom_pairwise (l : List (List ActorState)) :
    ∀ i, (Arena.populatedFrom i l).Pairwise (fun q1 q2 => q1.1 ≠ q2.1) := by
  induction l with
  | nil => intro i; simp [Arena.populatedFrom]
  | cons bin rest ih =>
    intro i
    rw [Arena.populatedFrom]
    split
    · exact ih (i + 1)
    · refine List.pairwise_cons.mpr ⟨?_, ih (i + 1)⟩
      intro q hq
      have h1 := (populatedFrom_mem rest (i + 1) q hq).1
      simp only
      omega

/-- Concatenating each snapshot bin's prefix of snapshot length recovers
exactly the arena's instances in bin order. -/
theorem populatedFrom_flatten (f : ActorState → RawID) (l : List (List ActorState)) :
    ∀ i, ((Arena.populatedFrom i l).map
        (fun q => ((l.getD (q.1 - i) []).take q.2).map f)).flatten
      = (l.map (fun bin => bin.map f)).flatten := by
  induction l with
  | nil => intro i; simp [Arena.populatedFrom]
  | cons bin rest ih =>
    intro i
    have hshift : (Arena.populatedFrom (i + 1) rest).map
        (fun q => (((bin :: rest).getD (q.1 - i) []).take q.2).map f)
        = (Arena.populatedFrom (i + 1) rest).map
          (fun q => ((rest.getD (q.1 - (i + 1)) []).take q.2).map f) := by
      apply List.map_congr_left
      intro q hq
      have h1 := (populatedFrom_mem rest (i + 1) q hq).1
      have hd : q.1 - i = (q.1 - (i + 1)) + 1 := by omega
      rw [hd, List.getD_cons_succ]
    rw [Arena.populatedFrom]
    by_cases hb : bin.length = 0
    · rw [if_pos hb]
      have hbin : bin = [] := List.eq_nil_of_length_eq_zero hb
      rw [hshift, ih (i + 1), hbin]
      simp
    · rw [if_neg hb]
      simp only [List.map_cons, List.flatten_cons]
      rw [hshift, ih (i + 1)]
      congr 1
      have hz : (i : Nat) - i = 0 := by omega
      simp only [hz, List.getD_cons_zero, List.take_length]

/-- The whole broadcast walk delivers, as a multiset, exactly the snapshot
prefix of every snapshot bin: later bins are disturbed only by appended
newcomers, which the walk never visits. -/
theorem broadcastBins_master (h : Handler) (msg : Msg) :
    ∀ snapshot (sw : Swarm) (w : World),
      (∀ q ∈ snapshot, q.2 ≤ (sw.instances.binList q.1).length) →
      snapshot.Pairwise (fun q1 q2 => q1.1 ≠ q2.1) →
      ((Swarm.broadcastBins h msg snapshot sw w).2.2).Perm
        ((snapshot.map (fun q =>
          ((sw.instances.binList q.1).take q.2).map (fun x => x.id))).flatten) := by
  intro snapshot
  induction snapshot with
  | nil => intro sw w _ _; simp [Swarm.broadcastBins]
  | cons q rest ih =>
    intro sw w hlen hpw
    rcases q with ⟨b, n⟩
    obtain ⟨permb, othb⟩ := broadcastBin_master h msg b n 0 n sw w (by omega)
      (hlen ⟨b, n⟩ (List.mem_cons_self _ _))
    rw [Swarm.broadcastBins]
    rcases h1 : Swarm.broadcastBin h msg b n 0 n sw w with ⟨sw1, w1, log1⟩
    rw [h1] at permb othb
    dsimp only at permb othb
    have hne : ∀ q' ∈ rest, q'.1 ≠ b := by
      intro q' hq'
      exact fun hx => ((List.pairwise_cons.mp hpw).1 q' hq') hx.symm
    have hlen1 : ∀ q' ∈ rest, q'.2 ≤ (sw1.instances.binList q'.1).length := by
      intro q' hq'
      obtain ⟨t, htt⟩ := othb q'.1 (hne q' hq')
      rw [htt, List.length_append]
      have := hlen q' (List.mem_cons_of_mem _ hq')
      omega
    have ihh := ih sw1 w1 hlen1 (List.pairwise_cons.mp hpw).2
    rcases h2 : Swarm.broadcastBins h msg rest sw1 w1 with ⟨sw2, w2, log2⟩
    rw [h2] at ihh
    dsimp only at ihh
    have hmapeq : rest.map (fun q' =>
        ((sw1.instances.binList q'.1).take q'.2).map (fun x => x.id))
        = rest.map (fun q' =>
          ((sw.instances.binList q'.1).take q'.2).map (fun x => x.id)) := by
      apply List.map_congr_left
      intro q' hq'
      obtain ⟨t, htt⟩ := othb q'.1 (hne q' hq')
      rw [htt, List.take_append_of_le_length (hlen q' (List.mem_cons_of_mem _ hq'))]
    rw [hmapeq] at ihh
    dsimp only
    rw [h2]
    dsimp only
    simp only [List.map_cons, List.flatten_cons]
    refine List.Perm.append ?_ ihh
    have hseg0 : seg (sw.instances.binList b) 0 n = (sw.instances.binList b).take n := by
      rw [seg, List.drop_zero, Nat.sub_zero]
    rw [hseg0] at permb
    exact permb

/-! ### C1: broadcast delivery, exactly once per original -/

/-- C1: in every broadcast, each instance present in the Swarm when the
snapshot was taken receives the message exactly once (the delivery log is a
permutation of the ids of all instances in the arena at broadcast start),
and nothing else — neither resized copies nor newcomers — receives it; in
particular the handler is invoked exactly `N = Σ bin_lens` times, once per
original instance, for every handler (a handler can only kill its own
receiver, so the kill exception never reduces the count in this
implementation). -/
theorem broadcast_delivers_each_original_exactly_once (sw : Swarm) (p : Packet)
    (h : Handler) (w : World) :
    ((sw.receive_broadcast p h w).2.2).Perm (sw.instances.allIds) ∧
    ((sw.receive_broadcast p h w).2.2).length = sw.instances.sumBinLens := by
  have hmem : ∀ q ∈ sw.instances.populated_bin_indices_and_lens,
      q.2 = (sw.instances.binList q.1).length := by
    intro q hq
    have h2 := (populatedFrom_mem sw.instances.bins 0 q hq).2.1
    rw [h2]
    rfl
  have hperm := broadcastBins_master h p.message
    (sw.instances.populated_bin_indices_and_lens) sw w
    (fun q hq => by rw [hmem q hq]) (populatedFrom_pairwise sw.instances.bins 0)
  have hmapfull : (sw.instances.populated_bin_indices_and_lens).map (fun q =>
      ((sw.instances.binList q.1).take q.2).map (fun x => x.id))
      = (sw.instances.populated_bin_indices_and_lens).map (fun q =>
        ((sw.instances.bins.getD (q.1 - 0) []).take q.2).map (fun x => x.id)) := by
    apply List.map_congr_left
    intro q _
    rfl
  rw [hmapfull, Arena.populated_bin_indices_and_lens,
    populatedFrom_flatten (fun x => x.id) sw.instances.bins 0] at hperm
  have hall : (sw.instances.bins.map (fun bin =>
      bin.map (fun x => x.id))).flatten = sw.instances.allIds := rfl
  rw [hall] at hperm
  rw [Swarm.receive_broadcast, Arena.populated_bin_indices_and_lens]
  refine ⟨hperm, ?_⟩
  rw [hperm.length_eq]
  rw [Arena.allIds, List.length_flatten, List.map_map, Arena.sumBinLens]
  congr 1
  apply List.map_congr_left
  intro bin _
  exact List.length_map _ _

/-! ### Slot-map effect helpers -/

theorem SlotMap.indices_of_some_inv (m : SlotMap) (id v : Nat) (idx : SlotIndices)
    (h : m.indices_of id v = some idx) :
    id < m.entries.length ∧ (m.entries.getD id default).occ = some idx ∧
      (m.entries.getD id default).version = v := by
  rw [SlotMap.indices_of] at h
  rcases hocc : (m.entries.getD id default).occ with _ | idx'
  · simp only [hocc] at h
    simp at h
  · simp only [hocc] at h
    by_cases hv : (m.entries.getD id default).version = v
    · rw [if_pos hv] at h
      simp only [Option.some_inj] at h
      subst h
      refine ⟨?_, rfl, hv⟩
      by_contra hlen
      rw [List.getD_eq_default _ _ (by omega)] at hocc
      simp [default] at hocc
    · rw [if_neg hv] at h
      simp at h

theorem SlotMap.no_version_check_of_occ (m : SlotMap) (id : Nat) (idx : SlotIndices)
    (h : (m.entries.getD id default).occ = some idx) :
    m.indices_of_no_version_check id = idx := by
  rw [SlotMap.indices_of_no_version_check, h]
  rfl

theorem SlotMap.associate_getD_self (m : SlotMap) (id : Nat) (idx : SlotIndices)
    (h : id < m.entries.length) :
    (m.associate id idx).entries.getD id default =
      ⟨some idx, (m.entries.getD id default).version⟩ := by
  rw [SlotMap.associate]
  exact getD_set_self _ _ _ _ h

theorem SlotMap.associate_getD_other (m : SlotMap) (id id' : Nat) (idx : SlotIndices)
    (h : id' ≠ id) :
    (m.associate id idx).entries.getD id' default = m.entries.getD id' default := by
  rw [SlotMap.associate]
  exact getD_set_ne _ _ _ _ _ h

theorem SlotMap.associate_entries_length (m : SlotMap) (id : Nat) (idx : SlotIndices) :
    (m.associate id idx).entries.length = m.entries.length := by
  rw [SlotMap.associate, List.length_set]

theorem SlotMap.associate_freeList (m : SlotMap) (id : Nat) (idx : SlotIndices) :
    (m.associate id idx).freeList = m.freeList := rfl

theorem SlotMap.free_getD_self (m : SlotMap) (id v : Nat)
    (h : id < m.entries.length) :
    (m.free id v).entries.getD id default =
      ⟨none, ((m.entries.getD id default).version + 1) % 256⟩ := by
  rw [SlotMap.free]
  exact getD_set_self _ _ _ _ h

theorem SlotMap.free_getD_other (m : SlotMap) (id v id' : Nat) (h : id' ≠ id) :
    (m.free id v).entries.getD id' default = m.entries.getD id' default := by
  rw [SlotMap.free]
  exact getD_set_ne _ _ _ _ _ h

theorem SlotMap.free_freeList (m : SlotMap) (id v : Nat) :
    (m.free id v).freeList = id :: m.freeList := rfl

/-- The slot-map side of `Swarm::swap_remove`: when a survivor was swapped
in, its id is re-associated to the freed indices; otherwise the map is
untouched. -/
theorem Swarm.swap_remove_slot_map (sw : Swarm) (i : SlotIndices) :
    (sw.swap_remove i).slot_map =
      if i.slot + 1 = (sw.instances.binList i.bin).length then sw.slot_map
      else sw.slot_map.associate
        ((sw.instances.binList i.bin).getD
          ((sw.instances.binList i.bin).length - 1) default).id.instance_id i := by
  rw [Swarm.swap_remove, Arena.swap_remove_within_bin]
  by_cases hc : i.slot + 1 = (sw.instances.binList i.bin).length
  · rw [if_pos hc]
    have hc' : i.slot + 1 = (sw.instances.bins.getD i.bin []).length := hc
    simp only [hc', if_true]
  · rw [if_neg hc]
    have hc' : ¬ i.slot + 1 = (sw.instances.bins.getD i.bin []).length := hc
    simp only [hc', if_false]
    rfl

theorem Swarm.swap_remove_n_instances (sw : Swarm) (i : SlotIndices) :
    (sw.swap_remove i).n_instances = sw.n_instances := by
  rw [Swarm.swap_remove]
  rcases hsw : sw.instances.swap_remove_within_bin i with ⟨mv, ar⟩
  cases mv <;> simp

theorem Swarm.add_with_id_slot_map (sw : Swarm) (a : ActorState) (id : RawID) :
    (sw.add_with_id a id).slot_map =
      sw.slot_map.associate id.instance_id (sw.instances.push (emplace a id)).2 := rfl

theorem Swarm.add_with_id_n_instances (sw : Swarm) (a : ActorState) (id : RawID) :
    (sw.add_with_id a id).n_instances = sw.n_instances := rfl

/-! ### C2: the neighbor-swap test drives the cursor -/

/-- C2: during a broadcast, after reconciling a handler that returned `Die`
or forced a resize at the cursor slot, the cursor revisits the same slot
with `index_after_last_recipient` decremented exactly when the bin's
current length is strictly below `index_after_last_recipient` (the
swap-remove pulled down an undelivered original); otherwise it advances
past the slot, skipping the swapped-in newcomer. -/
theorem broadcast_cursor_neighbor_swap (h : Handler) (msg : Msg)
    (b slot k : Nat) (sw : Swarm) (w : World)
    (hfate : (h msg (sw.instances.get ⟨b, slot⟩) w).1 = Fate.Die ∨
      ((h msg (sw.instances.get ⟨b, slot⟩) w).1 = Fate.Live ∧
        (h msg (sw.instances.get ⟨b, slot⟩) w).2.1.is_still_compact = false)) :
    (Swarm.broadcast_step h msg b slot k sw w).2.2.2 =
      if (Swarm.broadcast_step h msg b slot k sw w).1.instances.bin_len b < k
      then (slot, k - 1) else (slot + 1, k) := by
  rcases ht : h msg (sw.instances.get ⟨b, slot⟩) w with ⟨fate, a1, w1⟩
  rcases hfate with hd | ⟨hl, hc⟩
  · rw [ht] at hd
    simp only at hd
    subst hd
    simp only [Swarm.broadcast_step, ht]
    split
    · next hcnd => simp [hcnd]
    · next hcnd => simp [hcnd]
  · rw [ht] at hl hc
    simp only at hl hc
    subst hl
    simp only [Swarm.broadcast_step, ht, hc, Bool.false_eq_true, if_false]
    split
    · next hcnd => simp [hcnd]
    · next hcnd => simp [hcnd]

/-- Witness for C2: killing the instance at slot 0 of a 3-instance bin
with `index_after_last_recipient = 3` shrinks the bin to length 2 < 3, so
the cursor revisits slot 0 with the boundary decremented to 2. -/
theorem broadcast_cursor_neighbor_swap_witness :
    (Swarm.broadcast_step exDieHandler 0 0 0 3 exSwarm3 0).2.2.2 = (0, 2) := by
  have hthm := broadcast_cursor_neighbor_swap exDieHandler 0 0 0 3 exSwarm3 0
    (Or.inl rfl)
  rw [hthm]
  decide

/-! ### C4: the unicast resize path -/

/-- C4: a unicast `Live` handler that leaves its receiver no longer compact
triggers a resize: the instance is re-emplaced (compact, id installed) into
a freshly allocated tail slot of the bin for its new size, the old slot is
swap-removed, and the slot map afterwards maps the migrated instance to the
new indices and, when the swap-remove produced a survivor, maps that
neighbor to the old indices.  Stated for a resize that changes bins (the
instance no longer fits its current size class), with the survivor's id
distinct from the migrated one (slot-map invariant I1). -/
theorem unicast_live_resize_updates_slot_map (sw : Swarm) (p : Packet)
    (h : Handler) (w w1 : World) (idx : SlotIndices) (a1 : ActorState)
    (hidx : sw.slot_map.indices_of p.recipient_id.instance_id
      p.recipient_id.version = some idx)
    (hvalid : idx.slot < sw.instances.bin_len idx.bin)
    (hh : h p.message (sw.instances.get idx) w = (Fate.Live, a1, w1))
    (hnc : a1.is_still_compact = false)
    (hcb : sizeClass sw.instances.typical a1.total_size_bytes ≠ idx.bin)
    (hk1 : a1.id.instance_id < sw.slot_map.entries.length)
    (hyne : idx.slot + 1 < sw.instances.bin_len idx.bin →
      ((sw.instances.binList idx.bin).getD ((sw.instances.binList idx.bin).length - 1)
        default).id.instance_id ≠ a1.id.instance_id)
    (hyk : idx.slot + 1 < sw.instances.bin_len idx.bin →
      ((sw.instances.binList idx.bin).getD ((sw.instances.binList idx.bin).length - 1)
        default).id.instance_id < sw.slot_map.entries.length) :
    ((sw.receive_instance p h w).1.instances.get
      ⟨sizeClass sw.instances.typical a1.total_size_bytes,
        sw.instances.bin_len (sizeClass sw.instances.typical a1.total_size_bytes)⟩
      = emplace a1 a1.id) ∧
    ((sw.receive_instance p h w).1.instances.bin_len
        (sizeClass sw.instances.typical a1.total_size_bytes)
      = sw.instances.bin_len (sizeClass sw.instances.typical a1.total_size_bytes) + 1) ∧
    ((sw.receive_instance p h w).1.instances.bin_len idx.bin
      = sw.instances.bin_len idx.bin - 1) ∧
    ((sw.receive_instance p h w).1.slot_map.indices_of_no_version_check
        a1.id.instance_id
      = ⟨sizeClass sw.instances.typical a1.total_size_bytes,
          sw.instances.bin_len (sizeClass sw.instances.typical a1.total_size_bytes)⟩) ∧
    (idx.slot + 1 < sw.instances.bin_len idx.bin →
      (sw.receive_instance p h w).1.slot_map.indices_of_no_version_check
        ((sw.instances.binList idx.bin).getD ((sw.instances.binList idx.bin).length - 1)
          default).id.instance_id = idx) := by
  obtain ⟨hklen, hocc, hver⟩ := SlotMap.indices_of_some_inv _ _ _ _ hidx
  have hlookup : sw.slot_map.indices_of_no_version_check
      p.recipient_id.instance_id = idx := SlotMap.no_version_check_of_occ _ _ _ hocc
  -- reduce the dispatch to resize_at_index on the written-back state
  have hres : (sw.receive_instance p h w).1 =
      Swarm.resize_at_index { sw with instances := sw.instances.setAt idx a1 } idx := by
    rw [Swarm.receive_instance, hidx]
    simp only [hh]
    rw [hnc]
    simp only [Bool.false_eq_true, if_false]
    rw [Swarm.resize]
    have hlk : ({ sw with instances := sw.instances.setAt idx a1
        } : Swarm).slot_map.indices_of_no_version_check
        p.recipient_id.instance_id = idx := hlookup
    rw [hlk]
  have hbin1 : (sw.instances.setAt idx a1).binList idx.bin =
      (sw.instances.binList idx.bin).set idx.slot a1 :=
    Arena.binList_setAt_same _ _ _
  have hget1 : ({ sw with instances := sw.instances.setAt idx a1
      } : Swarm).instances.get idx = a1 := by
    rw [Arena.get_eq_binList]
    show ((sw.instances.setAt idx a1).binList idx.bin).getD idx.slot default = a1
    rw [hbin1]
    exact getD_set_self _ _ _ _ hvalid
  have hclass : sizeClass (sw.instances.setAt idx a1).typical
      (emplace a1 a1.id).total_size_bytes =
      sizeClass sw.instances.typical a1.total_size_bytes := rfl
  -- the arena after the resize
  have hinst : (sw.receive_instance p h w).1.instances =
      (((sw.instances.setAt idx a1).push
        (emplace a1 a1.id)).1.swap_remove_within_bin idx).2 := by
    rw [hres, Swarm.resize_at_index_instances, hget1]
  have hpushc : ((sw.instances.setAt idx a1).push (emplace a1 a1.id)).1.binList
      (sizeClass sw.instances.typical a1.total_size_bytes) =
      sw.instances.binList (sizeClass sw.instances.typical a1.total_size_bytes)
        ++ [emplace a1 a1.id] := by
    have hp := Arena.push_fst_binList_same (sw.instances.setAt idx a1)
      (emplace a1 a1.id)
    rw [hclass] at hp
    rw [hp, Arena.binList_setAt_other _ _ _ _ hcb]
  have hpushb : ((sw.instances.setAt idx a1).push (emplace a1 a1.id)).1.binList
      idx.bin = (sw.instances.binList idx.bin).set idx.slot a1 := by
    have hp := Arena.push_fst_binList_other (sw.instances.setAt idx a1)
      (emplace a1 a1.id) idx.bin (by rw [hclass]; exact fun hx => hcb hx.symm)
    rw [hp, hbin1]
  have hbinc : (sw.receive_instance p h w).1.instances.binList
      (sizeClass sw.instances.typical a1.total_size_bytes) =
      sw.instances.binList (sizeClass sw.instances.typical a1.total_size_bytes)
        ++ [emplace a1 a1.id] := by
    rw [hinst, Arena.swap_remove_binList_other _ _ _ hcb, hpushc]
  have hbinb : (sw.receive_instance p h w).1.instances.binList idx.bin =
      (if idx.slot + 1 = ((sw.instances.binList idx.bin).set idx.slot a1).length
        then ((sw.instances.binList idx.bin).set idx.slot a1).dropLast
        else ((((sw.instances.binList idx.bin).set idx.slot a1).set idx.slot
          ((((sw.instances.binList idx.bin).set idx.slot a1)).getD
            ((((sw.instances.binList idx.bin).set idx.slot a1)).length - 1)
            default)).dropLast)) := by
    rw [hinst, Arena.swap_remove_binList_same, hpushb]
  -- the slot map after the resize
  have hnewIdx : ((sw.instances.setAt idx a1).push (emplace a1 a1.id)).2 =
      (⟨sizeClass sw.instances.typical a1.total_size_bytes,
        sw.instances.bin_len (sizeClass sw.instances.typical a1.total_size_bytes)⟩
        : SlotIndices) := by
    rw [Arena.push_snd]
    show (⟨sizeClass sw.instances.typical a1.total_size_bytes,
      ((sw.instances.setAt idx a1).binList
        (sizeClass sw.instances.typical a1.total_size_bytes)).length⟩ : SlotIndices) = _
    rw [Arena.binList_setAt_other _ _ _ _ hcb]
    rfl
  have hsmap : (sw.receive_instance p h w).1.slot_map =
      ((({ sw with instances := sw.instances.setAt idx a1 } : Swarm).add_with_id
        a1 a1.id).swap_remove idx).slot_map := by
    rw [hres, Swarm.resize_at_index, hget1]
  have hcbin : (({ sw with instances := sw.instances.setAt idx a1
      } : Swarm).add_with_id a1 a1.id).instances.binList idx.bin =
      (sw.instances.binList idx.bin).set idx.slot a1 := by
    rw [Swarm.add_with_id_instances]
    exact hpushb
  have hsmadd : (({ sw with instances := sw.instances.setAt idx a1
      } : Swarm).add_with_id a1 a1.id).slot_map =
      sw.slot_map.associate a1.id.instance_id
        ⟨sizeClass sw.instances.typical a1.total_size_bytes,
          sw.instances.bin_len (sizeClass sw.instances.typical a1.total_size_bytes)⟩ := by
    rw [Swarm.add_with_id_slot_map, hnewIdx]
  -- conclusions 1-3: the arena
  refine ⟨?_, ?_, ?_, ?_, ?_⟩
  · rw [Arena.get_eq_binList]
    show ((sw.receive_instance p h w).1.instances.binList
      (sizeClass sw.instances.typical a1.total_size_bytes)).getD
      (sw.instances.bin_len (sizeClass sw.instances.typical a1.total_size_bytes))
      default = emplace a1 a1.id
    rw [hbinc]
    exact getD_append_last _ _ _
  · simp only [Arena.bin_len_eq_binList]
    rw [hbinc, List.length_append]
    rfl
  · simp only [Arena.bin_len_eq_binList]
    rw [hbinb]
    split <;> simp [List.length_dropLast, List.length_set]
  -- conclusions 4-5: the slot map
  · by_cases hlast : idx.slot + 1 = (sw.instances.binList idx.bin).length
    · have hsm : (sw.receive_instance p h w).1.slot_map =
          sw.slot_map.associate a1.id.instance_id
            ⟨sizeClass sw.instances.typical a1.total_size_bytes,
              sw.instances.bin_len (sizeClass sw.instances.typical a1.total_size_bytes)⟩ := by
        rw [hsmap, Swarm.swap_remove_slot_map, hcbin, List.length_set,
          if_pos hlast, hsmadd]
      rw [hsm, SlotMap.indices_of_no_version_check,
        SlotMap.associate_getD_self _ _ _ hk1]
      rfl
    · have hslt : idx.slot + 1 < (sw.instances.binList idx.bin).length := by
        have hv' : idx.slot < (sw.instances.binList idx.bin).length := hvalid
        omega
      have hy : (((sw.instances.binList idx.bin).set idx.slot a1)).getD
          ((sw.instances.binList idx.bin).length - 1) default =
          (sw.instances.binList idx.bin).getD
            ((sw.instances.binList idx.bin).length - 1) default :=
        getD_set_ne _ _ _ _ _ (by omega)
      have hsm : (sw.receive_instance p h w).1.slot_map =
          (sw.slot_map.associate a1.id.instance_id
            ⟨sizeClass sw.instances.typical a1.total_size_bytes,
              sw.instances.bin_len (sizeClass sw.instances.typical
                a1.total_size_bytes)⟩).associate
            ((sw.instances.binList idx.bin).getD
              ((sw.instances.binList idx.bin).length - 1) default).id.instance_id
            idx := by
        rw [hsmap, Swarm.swap_remove_slot_map, hcbin, List.length_set,
          if_neg hlast, hsmadd, hy]
      rw [hsm, SlotMap.indices_of_no_version_check,
        SlotMap.associate_getD_other _ _ _ _ (Ne.symm (hyne hslt)),
        SlotMap.associate_getD_self _ _ _ hk1]
      rfl
  · intro hslt'
    have hslt : idx.slot + 1 < (sw.instances.binList idx.bin).length := hslt'
    have hlast : ¬ idx.slot + 1 = (sw.instances.binList idx.bin).length := by omega
    have hy : (((sw.instances.binList idx.bin).set idx.slot a1)).getD
        ((sw.instances.binList idx.bin).length - 1) default =
        (sw.instances.binList idx.bin).getD
          ((sw.instances.binList idx.bin).length - 1) default :=
      getD_set_ne _ _ _ _ _ (by omega)
    have hsm : (sw.receive_instance p h w).1.slot_map =
        (sw.slot_map.associate a1.id.instance_id
          ⟨sizeClass sw.instances.typical a1.total_size_bytes,
            sw.instances.bin_len (sizeClass sw.instances.typical
              a1.total_size_bytes)⟩).associate
          ((sw.instances.binList idx.bin).getD
            ((sw.instances.binList idx.bin).length - 1) default).id.instance_id
          idx := by
      rw [hsmap, Swarm.swap_remove_slot_map, hcbin, List.length_set,
        if_neg hlast, hsmadd, hy]
    rw [hsm, SlotMap.indices_of_no_version_check,
      SlotMap.associate_getD_self _ _ _ (by
        rw [SlotMap.associate_entries_length]
        exact hyk hslt')]
    rfl

/-- Witness for C4: growing instance 0 (bin 0, slot 0) of a 3-instance bin
out of its class re-emplaces it at bin 1 slot 0 and the swapped-in survivor
(instance 2) maps to the old indices (bin 0, slot 0). -/
theorem unicast_live_resize_updates_slot_map_witness :
    ((Swarm.receive_instance exSwarm3 ⟨⟨7, 0, 0, 0⟩, 5⟩ exGrowHandler
      0).1.slot_map.indices_of_no_version_check 0 = ⟨1, 0⟩) ∧
    ((Swarm.receive_instance exSwarm3 ⟨⟨7, 0, 0, 0⟩, 5⟩ exGrowHandler
      0).1.slot_map.indices_of_no_version_check 2 = ⟨0, 0⟩) := by
  have hthm := unicast_live_resize_updates_slot_map exSwarm3 ⟨⟨7, 0, 0, 0⟩, 5⟩
    exGrowHandler 0 0 ⟨0, 0⟩ ⟨⟨7, 0, 0, 0⟩, 20, false, 100⟩
    (by decide) (by decide) rfl rfl (by decide) (by decide)
    (fun _ => by decide) (fun _ => by decide)
  exact ⟨hthm.2.2.2.1, hthm.2.2.2.2 (by decide)⟩

/-! ### C5: the unicast Die path -/

/-- C5: a unicast handler returning `Die` on a validly addressed instance
makes the Swarm drop the instance, swap-remove its slot (the bin shrinks by
one), update the slot map for the swapped-in neighbor when one exists, free
the recipient's key (entry becomes free with its version bumped, key pushed
on the free list), and decrement `n_instances` by exactly one.  The
neighbor's id is distinct from the recipient's (slot-map invariant I1). -/
theorem unicast_die_removes_and_frees (sw : Swarm) (p : Packet) (h : Handler)
    (w w1 : World) (idx : SlotIndices) (a1 : ActorState)
    (hidx : sw.slot_map.indices_of p.recipient_id.instance_id
      p.recipient_id.version = some idx)
    (hvalid : idx.slot < sw.instances.bin_len idx.bin)
    (hh : h p.message (sw.instances.get idx) w = (Fate.Die, a1, w1))
    (hyne : idx.slot + 1 < sw.instances.bin_len idx.bin →
      ((sw.instances.binList idx.bin).getD ((sw.instances.binList idx.bin).length - 1)
        default).id.instance_id ≠ p.recipient_id.instance_id)
    (hyk : idx.slot + 1 < sw.instances.bin_len idx.bin →
      ((sw.instances.binList idx.bin).getD ((sw.instances.binList idx.bin).length - 1)
        default).id.instance_id < sw.slot_map.entries.length) :
    ((sw.receive_instance p h w).1.n_instances = sw.n_instances - 1) ∧
    ((sw.receive_instance p h w).1.slot_map.entries.getD
        p.recipient_id.instance_id default =
      ⟨none, ((sw.slot_map.entries.getD p.recipient_id.instance_id
        default).version + 1) % 256⟩) ∧
    ((sw.receive_instance p h w).1.slot_map.freeList =
      p.recipient_id.instance_id :: sw.slot_map.freeList) ∧
    ((sw.receive_instance p h w).1.instances.bin_len idx.bin
      = sw.instances.bin_len idx.bin - 1) ∧
    (idx.slot + 1 < sw.instances.bin_len idx.bin →
      (sw.receive_instance p h w).1.slot_map.indices_of_no_version_check
        ((sw.instances.binList idx.bin).getD ((sw.instances.binList idx.bin).length - 1)
          default).id.instance_id = idx) := by
  obtain ⟨hklen, hocc, hver⟩ := SlotMap.indices_of_some_inv _ _ _ _ hidx
  have hlookup : sw.slot_map.indices_of_no_version_check
      p.recipient_id.instance_id = idx := SlotMap.no_version_check_of_occ _ _ _ hocc
  have hres : (sw.receive_instance p h w).1 =
      Swarm.remove_at_index { sw with instances := sw.instances.setAt idx a1 }
        idx p.recipient_id := by
    rw [Swarm.receive_instance, hidx]
    simp only [hh]
    rw [Swarm.remove]
    have hlk : ({ sw with instances := sw.instances.setAt idx a1
        } : Swarm).slot_map.indices_of_no_version_check
        p.recipient_id.instance_id = idx := hlookup
    rw [hlk]
  have hbin1 : (sw.instances.setAt idx a1).binList idx.bin =
      (sw.instances.binList idx.bin).set idx.slot a1 :=
    Arena.binList_setAt_same _ _ _
  have hswsm : (Swarm.swap_remove { sw with instances := sw.instances.setAt idx a1
      } idx).slot_map =
      if idx.slot + 1 = (sw.instances.binList idx.bin).length
      then sw.slot_map
      else sw.slot_map.associate
        ((sw.instances.binList idx.bin).getD
          ((sw.instances.binList idx.bin).length - 1) default).id.instance_id idx := by
    rw [Swarm.swap_remove_slot_map]
    show (if idx.slot + 1 = ((sw.instances.setAt idx a1).binList idx.bin).length
      then sw.slot_map
      else sw.slot_map.associate (((sw.instances.setAt idx a1).binList
        idx.bin).getD (((sw.instances.setAt idx a1).binList idx.bin).length - 1)
        default).id.instance_id idx) = _
    rw [hbin1, List.length_set]
    by_cases hlast : idx.slot + 1 = (sw.instances.binList idx.bin).length
    · rw [if_pos hlast, if_pos hlast]
    · rw [if_neg hlast, if_neg hlast]
      have hy : (((sw.instances.binList idx.bin).set idx.slot a1)).getD
          ((sw.instances.binList idx.bin).length - 1) default =
          (sw.instances.binList idx.bin).getD
            ((sw.instances.binList idx.bin).length - 1) default := by
        have hv' : idx.slot < (sw.instances.binList idx.bin).length := hvalid
        exact getD_set_ne _ _ _ _ _ (by omega)
      rw [hy]
  have hsm : (sw.receive_instance p h w).1.slot_map =
      ((if idx.slot + 1 = (sw.instances.binList idx.bin).length
        then sw.slot_map
        else sw.slot_map.associate
          ((sw.instances.binList idx.bin).getD
            ((sw.instances.binList idx.bin).length - 1) default).id.instance_id
          idx)).free p.recipient_id.instance_id p.recipient_id.version := by
    rw [hres, Swarm.remove_at_index]
    simp only
    rw [hswsm]
  refine ⟨?_, ?_, ?_, ?_, ?_⟩
  · rw [hres, Swarm.remove_at_index]
    simp only
    rw [Swarm.swap_remove_n_instances]
  · rw [hsm]
    by_cases hlast : idx.slot + 1 = (sw.instances.binList idx.bin).length
    · rw [if_pos hlast, SlotMap.free_getD_self _ _ _ hklen]
    · rw [if_neg hlast,
        SlotMap.free_getD_self _ _ _ (by
          rw [SlotMap.associate_entries_length]; exact hklen),
        SlotMap.associate_getD_other _ _ _ _ (by
          have hv' : idx.slot < (sw.instances.binList idx.bin).length := hvalid
          have hlt : idx.slot + 1 < sw.instances.bin_len idx.bin := by
            show idx.slot + 1 < (sw.instances.binList idx.bin).length
            omega
          exact Ne.symm (hyne hlt))]
  · rw [hsm]
    by_cases hlast : idx.slot + 1 = (sw.instances.binList idx.bin).length
    · rw [if_pos hlast, SlotMap.free_freeList]
    · rw [if_neg hlast, SlotMap.free_freeList, SlotMap.associate_freeList]
  · have hinst : (sw.receive_instance p h w).1.instances =
        ((sw.instances.setAt idx a1).swap_remove_within_bin idx).2 := by
      rw [hres, Swarm.remove_at_index_instances]
    simp only [Arena.bin_len_eq_binList]
    rw [hinst, Arena.swap_remove_binList_same, hbin1]
    split <;> simp [List.length_dropLast, List.length_set]
  · intro hslt'
    have hslt : idx.slot + 1 < (sw.instances.binList idx.bin).length := hslt'
    rw [hsm, if_neg (show ¬ idx.slot + 1 = (sw.instances.binList idx.bin).length
        by omega), SlotMap.indices_of_no_version_check,
      SlotMap.free_getD_other _ _ _ _ (hyne hslt'),
      SlotMap.associate_getD_self _ _ _ (hyk hslt')]
    rfl

/-- Witness for C5: killing instance 0 (bin 0, slot 0) of a 3-instance bin
drops the count to 2, frees key 0 with version bumped to 1 and free list
`[0]`, shrinks the bin to 2, and remaps survivor 2 to (bin 0, slot 0). -/
theorem unicast_die_removes_and_frees_witness :
    ((Swarm.receive_instance exSwarm3 ⟨⟨7, 0, 0, 0⟩, 5⟩ exDieHandler
      0).1.n_instances = 2) ∧
    ((Swarm.receive_instance exSwarm3 ⟨⟨7, 0, 0, 0⟩, 5⟩ exDieHandler
      0).1.slot_map.freeList = [0]) ∧
    ((Swarm.receive_instance exSwarm3 ⟨⟨7, 0, 0, 0⟩, 5⟩ exDieHandler
      0).1.slot_map.indices_of_no_version_check 2 = ⟨0, 0⟩) := by
  have hthm := unicast_die_removes_and_frees exSwarm3 ⟨⟨7, 0, 0, 0⟩, 5⟩
    exDieHandler 0 0 ⟨0, 0⟩ (exActor 0 16)
    (by decide) (by decide) rfl (fun _ => by decide) (fun _ => by decide)
  exact ⟨hthm.1, hthm.2.2.1, hthm.2.2.2.2 (by decide)⟩

/-! ### Counting utilities for the C6 invariant -/

theorem countP_set {α : Type} (p : α → Bool) (l : List α) :
    ∀ i e d, i < l.length →
      ((l.set i e).filter p).length + (if p (l.getD i d) = true then 1 else 0)
        = (l.filter p).length + (if p e = true then 1 else 0) := by
  induction l with
  | nil => intro i e d h; simp at h
  | cons x xs ih =>
    intro i e d h
    cases i with
    | zero =>
      by_cases hx : p x = true <;> by_cases he : p e = true <;>
        simp [List.filter_cons, hx, he]
    | succ j =>
      simp only [List.length_cons, Nat.succ_lt_succ_iff] at h
      have hih := ih j e d h
      by_cases hx : p x = true <;>
        simp [List.filter_cons, hx, List.getD_cons_succ] at hih ⊢ <;> omega

theorem sum_map_length_set (l : List (List ActorState)) :
    ∀ i bin, i < l.length →
      ((l.set i bin).map List.length).sum + (l.getD i []).length
        = (l.map List.length).sum + bin.length := by
  induction l with
  | nil => intro i bin h; simp at h
  | cons x xs ih =>
    intro i bin h
    cases i with
    | zero => simp [List.getD]; omega
    | succ j =>
      simp only [List.length_cons, Nat.succ_lt_succ_iff] at h
      have := ih j bin h
      simp only [List.set_cons_succ, List.map_cons, List.sum_cons,
        List.getD_cons_succ]
      omega

theorem sum_map_length_pad (l : List (List ActorState)) (m : Nat) :
    ((l ++ List.replicate m ([] : List ActorState)).map List.length).sum
      = (l.map List.length).sum := by
  rw [List.map_append, List.sum_append]
  simp

theorem getD_take {α : Type} (l : List α) (m s : Nat) (d : α) (h : s < m) :
    (l.take m).getD s d = l.getD s d := by
  rw [List.getD_eq_getElem?_getD, List.getD_eq_getElem?_getD,
    List.getElem?_take_of_lt h]

theorem getD_dropLast {α : Type} (l : List α) (s : Nat) (d : α)
    (h : s < l.length - 1) : (l.dropLast).getD s d = l.getD s d := by
  rw [List.dropLast_eq_take]
  exact getD_take _ _ _ _ h

/-! ### The representation invariant (spec I1, I3) -/

/-- The counting part of the invariant: P1/I3 of the spec. -/
def countWF (sw : Swarm) : Prop :=
  sw.instance_count = sw.instances.sumBinLens ∧
  sw.instance_count = sw.slot_map.occupiedCount

/-- An occupied slot-map entry points at a populated arena slot holding the
instance with that key (spec I1, entry side). -/
def entryOK (sw : Swarm) (i : Nat) : Prop :=
  ((sw.slot_map.entries.getD i default).occ).elim True (fun idx =>
    idx.slot < sw.instances.bin_len idx.bin ∧
    ((sw.instances.binList idx.bin).getD idx.slot default).id.instance_id = i)

/-- Every populated arena slot holds an instance whose key maps back to
exactly that slot (spec I1, arena side). -/
def slotOK (sw : Swarm) (b s : Nat) : Prop :=
  ((sw.instances.binList b).getD s default).id.instance_id
      < sw.slot_map.entries.length ∧
  (sw.slot_map.entries.getD
    ((sw.instances.binList b).getD s default).id.instance_id default).occ
    = some ⟨b, s⟩

/-- The Swarm representation invariant: counts agree (I3) and the slot map
and arena are mutually inverse (I1). -/
def Inv (sw : Swarm) : Prop :=
  countWF sw ∧
  (∀ i, i < sw.slot_map.entries.length → entryOK sw i) ∧
  (∀ b, b < sw.instances.bins.length →
    ∀ s, s < sw.instances.bin_len b → slotOK sw b s)

instance countWF_decidable (sw : Swarm) : Decidable (countWF sw) :=
  decidable_of_iff (sw.instance_count = sw.instances.sumBinLens ∧
    sw.instance_count = sw.slot_map.occupiedCount) (by rw [countWF])

instance entryOK_decidable (sw : Swarm) (i : Nat) : Decidable (entryOK sw i) :=
  match h : (sw.slot_map.entries.getD i default).occ with
  | none => isTrue (by rw [entryOK, h]; exact trivial)
  | some idx => decidable_of_iff (idx.slot < sw.instances.bin_len idx.bin ∧
      ((sw.instances.binList idx.bin).getD idx.slot default).id.instance_id = i)
      (by rw [entryOK, h]; exact Iff.rfl)

instance slotOK_decidable (sw : Swarm) (b s : Nat) : Decidable (slotOK sw b s) :=
  decidable_of_iff (((sw.instances.binList b).getD s default).id.instance_id
      < sw.slot_map.entries.length ∧
    (sw.slot_map.entries.getD
      ((sw.instances.binList b).getD s default).id.instance_id default).occ
      = some ⟨b, s⟩) (by rw [slotOK])

instance Inv_decidable (sw : Swarm) : Decidable (Inv sw) :=
  decidable_of_iff (countWF sw ∧
    (∀ i, i < sw.slot_map.entries.length → entryOK sw i) ∧
    (∀ b, b < sw.instances.bins.length →
      ∀ s, s < sw.instances.bin_len b → slotOK sw b s)) (by rw [Inv])

/-! ### Count bookkeeping for each operation -/

theorem occupiedCount_associate_occupied (m : SlotMap) (id : Nat)
    (idx : SlotIndices) (hlen : id < m.entries.length)
    (hocc : (m.entries.getD id default).occ.isSome = true) :
    (m.associate id idx).occupiedCount = m.occupiedCount := by
  have hc := countP_set (fun e => e.occ.isSome) m.entries id
    ⟨some idx, (m.entries.getD id default).version⟩ default hlen
  rw [SlotMap.occupiedCount, SlotMap.occupiedCount, SlotMap.associate]
  simp only [hocc, Option.isSome_some, if_true] at hc
  dsimp only
  omega

theorem occupiedCount_associate_fresh (m : SlotMap) (id : Nat)
    (idx : SlotIndices) (hlen : id < m.entries.length)
    (hocc : (m.entries.getD id default).occ = none) :
    (m.associate id idx).occupiedCount = m.occupiedCount + 1 := by
  have hc := countP_set (fun e => e.occ.isSome) m.entries id
    ⟨some idx, (m.entries.getD id default).version⟩ default hlen
  rw [SlotMap.occupiedCount, SlotMap.occupiedCount, SlotMap.associate]
  simp only [hocc, Option.isSome_none, Option.isSome_some, if_true,
    Bool.false_eq_true, if_false] at hc
  dsimp only
  omega

theorem occupiedCount_free (m : SlotMap) (id v : Nat)
    (hlen : id < m.entries.length)
    (hocc : (m.entries.getD id default).occ.isSome = true) :
    (m.free id v).occupiedCount = m.occupiedCount - 1 := by
  have hc := countP_set (fun e => e.occ.isSome) m.entries id
    ⟨none, ((m.entries.getD id default).version + 1) % 256⟩ default hlen
  rw [SlotMap.occupiedCount, SlotMap.occupiedCount, SlotMap.free]
  simp only [hocc, Option.isSome_some, Option.isSome_none, if_true,
    Bool.false_eq_true, if_false] at hc
  dsimp only
  omega

theorem occupiedCount_pos (m : SlotMap) (id : Nat)
    (hlen : id < m.entries.length)
    (hocc : (m.entries.getD id default).occ.isSome = true) :
    1 ≤ m.occupiedCount := by
  rw [SlotMap.occupiedCount]
  have hmem : m.entries.getD id default ∈ m.entries := by
    rw [List.getD_eq_getElem _ _ hlen]
    exact List.getElem_mem _
  have hmf : m.entries.getD id default ∈
      m.entries.filter (fun e => e.occ.isSome) :=
    List.mem_filter.mpr ⟨hmem, hocc⟩
  have hne := List.ne_nil_of_mem hmf
  have hpos := List.length_pos.mpr hne
  omega

theorem sumBinLens_setAt (a : Arena) (i : SlotIndices) (x : ActorState) :
    (a.setAt i x).sumBinLens = a.sumBinLens := by
  rcases Nat.lt_or_ge i.bin a.bins.length with h | h
  · have hc := sum_map_length_set a.bins i.bin
      ((a.bins.getD i.bin []).set i.slot x) h
    rw [Arena.setAt, Arena.sumBinLens, Arena.sumBinLens]
    simp only [List.length_set] at hc
    dsimp only
    omega
  · rw [Arena.setAt, Arena.sumBinLens, Arena.sumBinLens,
      List.set_eq_of_length_le h]

theorem sumBinLens_push (a : Arena) (x : ActorState) :
    ((a.push x).1).sumBinLens = a.sumBinLens + 1 := by
  rw [Arena.push]
  simp only
  rw [Arena.sumBinLens, Arena.sumBinLens]
  dsimp only
  rw [getD_pad]
  have hlen := Arena.push_bins1_len a (sizeClass a.typical x.total_size_bytes)
  have hc := sum_map_length_set
    (a.bins ++ List.replicate (sizeClass a.typical x.total_size_bytes + 1
      - a.bins.length) [])
    (sizeClass a.typical x.total_size_bytes)
    ((a.bins.getD (sizeClass a.typical x.total_size_bytes) []) ++ [x]) hlen
  rw [sum_map_length_pad, getD_pad, List.length_append] at hc
  simp only [List.length_cons, List.length_nil] at hc
  omega

theorem sumBinLens_swap (a : Arena) (i : SlotIndices)
    (h : i.slot < a.bin_len i.bin) :
    ((a.swap_remove_within_bin i).2).sumBinLens = a.sumBinLens - 1 := by
  have hpos : 0 < (a.bins.getD i.bin []).length := Nat.lt_of_le_of_lt (Nat.zero_le _) h
  have hb : i.bin < a.bins.length :=
    a.bin_lt_of_len_pos i.bin (Nat.lt_of_le_of_lt (Nat.zero_le _) h)
  rw [Arena.swap_remove_within_bin]
  split
  · simp only
    rw [Arena.sumBinLens, Arena.sumBinLens]
    have hc := sum_map_length_set a.bins i.bin (a.bins.getD i.bin []).dropLast hb
    rw [List.length_dropLast] at hc
    dsimp only
    omega
  · simp only
    rw [Arena.sumBinLens, Arena.sumBinLens]
    have hc := sum_map_length_set a.bins i.bin
      (((a.bins.getD i.bin []).set i.slot
        ((a.bins.getD i.bin []).getD ((a.bins.getD i.bin []).length - 1)
          default)).dropLast) hb
    rw [List.length_dropLast, List.length_set] at hc
    dsimp only
    omega

/-! ### Invariant preservation -/

theorem Arena.bin_len_setAt (a : Arena) (i : SlotIndices) (x : ActorState)
    (b' : Nat) : (a.setAt i x).bin_len b' = a.bin_len b' := by
  by_cases h : b' = i.bin
  · subst h
    rw [Arena.bin_len_eq_binList, Arena.bin_len_eq_binList,
      Arena.binList_setAt_same, List.length_set]
  · rw [Arena.bin_len_eq_binList, Arena.bin_len_eq_binList,
      Arena.binList_setAt_other _ _ _ _ h]

theorem Arena.bins_length_setAt (a : Arena) (i : SlotIndices) (x : ActorState) :
    (a.setAt i x).bins.length = a.bins.length := by
  rw [Arena.setAt, List.length_set]

theorem Arena.bins_length_swap (a : Arena) (i : SlotIndices) :
    ((a.swap_remove_within_bin i).2).bins.length = a.bins.length := by
  rw [Arena.swap_remove_within_bin]
  split <;> rw [List.length_set]

/-- Writing back a handler-mutated instance with an unchanged id preserves
the representation invariant. -/
theorem Inv_setAt (sw : Swarm) (i : SlotIndices) (x : ActorState)
    (hInv : Inv sw) (hvalid : i.slot < sw.instances.bin_len i.bin)
    (hid : x.id.instance_id =
      ((sw.instances.binList i.bin).getD i.slot default).id.instance_id) :
    Inv { sw with instances := sw.instances.setAt i x } := by
  obtain ⟨⟨hc1, hc2⟩, hentry, hslot⟩ := hInv
  have hvalid' : i.slot < (sw.instances.binList i.bin).length := hvalid
  refine ⟨⟨?_, hc2⟩, ?_, ?_⟩
  · show sw.n_instances = (sw.instances.setAt i x).sumBinLens
    rw [sumBinLens_setAt]
    exact hc1
  · intro j hj
    have hold := hentry j hj
    rw [entryOK] at hold ⊢
    show ((sw.slot_map.entries.getD j default).occ).elim True _
    rcases hocc : (sw.slot_map.entries.getD j default).occ with _ | idx
    · exact trivial
    · rw [hocc] at hold
      obtain ⟨hlt, hkey⟩ := hold
      refine ⟨?_, ?_⟩
      · show idx.slot < (sw.instances.setAt i x).bin_len idx.bin
        rw [Arena.bin_len_setAt]
        exact hlt
      · show (((sw.instances.setAt i x).binList idx.bin).getD idx.slot
          default).id.instance_id = j
        by_cases hbb : idx.bin = i.bin
        · rw [hbb, Arena.binList_setAt_same]
          by_cases hss : idx.slot = i.slot
          · rw [hss, getD_set_self _ _ _ _ hvalid', hid]
            rw [hbb, hss] at hkey
            exact hkey
          · rw [getD_set_ne _ _ _ _ _ hss]
            rw [hbb] at hkey
            exact hkey
        · rw [Arena.binList_setAt_other _ _ _ _ hbb]
          exact hkey
  · intro b hb s hs
    have hb2 : b < (sw.instances.setAt i x).bins.length := hb
    have hs2 : s < (sw.instances.setAt i x).bin_len b := hs
    have hb' : b < sw.instances.bins.length := by
      have h3 := Arena.bins_length_setAt sw.instances i x
      omega
    have hs' : s < sw.instances.bin_len b := by
      have h3 := Arena.bin_len_setAt sw.instances i x b
      omega
    have hold := hslot b hb' s hs'
    rw [slotOK] at hold ⊢
    obtain ⟨hklt, hmap⟩ := hold
    have hkeyeq : (((sw.instances.setAt i x).binList b).getD s
        default).id.instance_id
        = ((sw.instances.binList b).getD s default).id.instance_id := by
      by_cases hbb : b = i.bin
      · subst hbb
        rw [Arena.binList_setAt_same]
        by_cases hss : s = i.slot
        · subst hss
          rw [getD_set_self _ _ _ _ hvalid', hid]
        · rw [getD_set_ne _ _ _ _ _ hss]
      · rw [Arena.binList_setAt_other _ _ _ _ hbb]
    show (((sw.instances.setAt i x).binList b).getD s default).id.instance_id
        < sw.slot_map.entries.length ∧
      (sw.slot_map.entries.getD (((sw.instances.setAt i x).binList b).getD s
        default).id.instance_id default).occ = some ⟨b, s⟩
    rw [hkeyeq]
    exact ⟨hklt, hmap⟩

theorem Arena.bin_len_push_same (a : Arena) (x : ActorState) :
    ((a.push x).1).bin_len (sizeClass a.typical x.total_size_bytes)
      = a.bin_len (sizeClass a.typical x.total_size_bytes) + 1 := by
  rw [Arena.bin_len_eq_binList, Arena.bin_len_eq_binList,
    Arena.push_fst_binList_same, List.length_append]
  rfl

theorem Arena.bin_len_push_other (a : Arena) (x : ActorState) (b' : Nat)
    (h : b' ≠ sizeClass a.typical x.total_size_bytes) :
    ((a.push x).1).bin_len b' = a.bin_len b' := by
  rw [Arena.bin_len_eq_binList, Arena.bin_len_eq_binList,
    Arena.push_fst_binList_other _ _ _ h]

/-- Adding a prepared instance at a freshly allocated (unoccupied) key
preserves the representation invariant and increments the count by one. -/
theorem Inv_add_manually (sw : Swarm) (a : ActorState) (id : RawID)
    (hInv : Inv sw) (hklen : id.instance_id < sw.slot_map.entries.length)
    (hocc : (sw.slot_map.entries.getD id.instance_id default).occ = none) :
    Inv (sw.add_manually_with_id a id) ∧
    (sw.add_manually_with_id a id).n_instances = sw.n_instances + 1 := by
  obtain ⟨⟨hc1, hc2⟩, hentry, hslot⟩ := hInv
  have hidx : (sw.instances.push (emplace a id)).2 =
      (⟨sizeClass sw.instances.typical (emplace a id).total_size_bytes,
        (sw.instances.binList (sizeClass sw.instances.typical
          (emplace a id).total_size_bytes)).length⟩ : SlotIndices) :=
    Arena.push_snd _ _
  have hsm : (sw.add_manually_with_id a id).slot_map =
      sw.slot_map.associate id.instance_id
        ⟨sizeClass sw.instances.typical (emplace a id).total_size_bytes,
          (sw.instances.binList (sizeClass sw.instances.typical
            (emplace a id).total_size_bytes)).length⟩ := by
    rw [Swarm.add_manually_with_id]
    simp only
    rw [Swarm.add_with_id_slot_map, hidx]
  have hinst : (sw.add_manually_with_id a id).instances =
      (sw.instances.push (emplace a id)).1 := rfl
  have hn : (sw.add_manually_with_id a id).n_instances = sw.n_instances + 1 := rfl
  have hbinC : ((sw.instances.push (emplace a id)).1).binList
      (sizeClass sw.instances.typical (emplace a id).total_size_bytes) =
      sw.instances.binList (sizeClass sw.instances.typical
        (emplace a id).total_size_bytes) ++ [emplace a id] :=
    Arena.push_fst_binList_same _ _
  refine ⟨⟨⟨?_, ?_⟩, ?_, ?_⟩, hn⟩
  · show (sw.add_manually_with_id a id).n_instances
      = (sw.instances.push (emplace a id)).1.sumBinLens
    rw [hn, sumBinLens_push]
    have hc1' : sw.n_instances = sw.instances.sumBinLens := hc1
    omega
  · show (sw.add_manually_with_id a id).n_instances
      = (sw.add_manually_with_id a id).slot_map.occupiedCount
    rw [hn, hsm, occupiedCount_associate_fresh _ _ _ hklen hocc]
    have hc2' : sw.n_instances = sw.slot_map.occupiedCount := hc2
    omega
  · intro j hj
    have hj' : j < sw.slot_map.entries.length := by
      have h3 : (sw.add_manually_with_id a id).slot_map.entries.length
          = sw.slot_map.entries.length := by
        rw [hsm, SlotMap.associate_entries_length]
      omega
    rw [entryOK, hsm]
    by_cases hjk : j = id.instance_id
    · subst hjk
      rw [SlotMap.associate_getD_self _ _ _ hklen]
      refine ⟨?_, ?_⟩
      · show (sw.instances.binList (sizeClass sw.instances.typical
          (emplace a id).total_size_bytes)).length
          < (sw.add_manually_with_id a id).instances.bin_len _
        rw [hinst, Arena.bin_len_push_same]
        show _ < (sw.instances.binList _).length + 1
        omega
      · show (((sw.add_manually_with_id a id).instances.binList
          (sizeClass sw.instances.typical (emplace a id).total_size_bytes)).getD
          (sw.instances.binList (sizeClass sw.instances.typical
            (emplace a id).total_size_bytes)).length default).id.instance_id
          = id.instance_id
        rw [hinst, hbinC, getD_append_last, emplace_id]
    · rw [SlotMap.associate_getD_other _ _ _ _ hjk]
      have hold := hentry j hj'
      rw [entryOK] at hold
      rcases hoccj : (sw.slot_map.entries.getD j default).occ with _ | idx
      · exact trivial
      · rw [hoccj] at hold
        obtain ⟨hlt, hkey⟩ := hold
        refine ⟨?_, ?_⟩
        · show idx.slot < (sw.add_manually_with_id a id).instances.bin_len idx.bin
          rw [hinst]
          by_cases hbc : idx.bin = sizeClass sw.instances.typical
            (emplace a id).total_size_bytes
          · rw [hbc, Arena.bin_len_push_same]
            rw [hbc] at hlt
            omega
          · rw [Arena.bin_len_push_other _ _ _ hbc]
            exact hlt
        · show (((sw.add_manually_with_id a id).instances.binList idx.bin).getD
            idx.slot default).id.instance_id = j
          rw [hinst]
          by_cases hbc : idx.bin = sizeClass sw.instances.typical
            (emplace a id).total_size_bytes
          · rw [hbc, hbinC, getD_append_left]
            · rw [← hbc]
              exact hkey
            · rw [← hbc]
              exact hlt
          · rw [Arena.push_fst_binList_other _ _ _ hbc]
            exact hkey
  · intro b hb s hs
    rw [slotOK, hsm]
    by_cases hbc : b = sizeClass sw.instances.typical (emplace a id).total_size_bytes
    · subst hbc
      have hsm1 : s < (sw.instances.binList (sizeClass sw.instances.typical
          (emplace a id).total_size_bytes)).length + 1 := by
        have hs2 : s < (sw.add_manually_with_id a id).instances.bin_len
          (sizeClass sw.instances.typical (emplace a id).total_size_bytes) := hs
        rw [hinst, Arena.bin_len_push_same] at hs2
        exact hs2
      by_cases hsl : s = (sw.instances.binList (sizeClass sw.instances.typical
          (emplace a id).total_size_bytes)).length
      · rw [show (sw.add_manually_with_id a id).instances.binList
            (sizeClass sw.instances.typical (emplace a id).total_size_bytes)
            = sw.instances.binList (sizeClass sw.instances.typical
              (emplace a id).total_size_bytes) ++ [emplace a id] from hbinC,
          hsl, getD_append_last, emplace_id]
        refine ⟨by rw [SlotMap.associate_entries_length]; exact hklen, ?_⟩
        rw [SlotMap.associate_getD_self _ _ _ hklen]
      · have hslt : s < (sw.instances.binList (sizeClass sw.instances.typical
            (emplace a id).total_size_bytes)).length := by omega
        have hCb : sizeClass sw.instances.typical (emplace a id).total_size_bytes
            < sw.instances.bins.length :=
          sw.instances.bin_lt_of_len_pos _ (Nat.lt_of_le_of_lt (Nat.zero_le _) hslt)
        have hold := hslot _ hCb s hslt
        rw [slotOK] at hold
        obtain ⟨hklt, hmap⟩ := hold
        rw [show (sw.add_manually_with_id a id).instances.binList
            (sizeClass sw.instances.typical (emplace a id).total_size_bytes)
            = sw.instances.binList (sizeClass sw.instances.typical
              (emplace a id).total_size_bytes) ++ [emplace a id] from hbinC,
          getD_append_left _ _ _ _ hslt]
        have hkne : ((sw.instances.binList (sizeClass sw.instances.typical
            (emplace a id).total_size_bytes)).getD s default).id.instance_id
            ≠ id.instance_id := by
          intro hk
          rw [hk, hocc] at hmap
          simp at hmap
        rw [SlotMap.associate_getD_other _ _ _ _ hkne,
          SlotMap.associate_entries_length]
        exact ⟨hklt, hmap⟩
    · have hs2 : s < (sw.add_manually_with_id a id).instances.bin_len b := hs
      rw [hinst, Arena.bin_len_push_other _ _ _ hbc] at hs2
      have hbb : b < sw.instances.bins.length :=
        sw.instances.bin_lt_of_len_pos _ (Nat.lt_of_le_of_lt (Nat.zero_le _) hs2)
      have hold := hslot b hbb s hs2
      rw [slotOK] at hold
      obtain ⟨hklt, hmap⟩ := hold
      rw [show (sw.add_manually_with_id a id).instances.binList b
          = sw.instances.binList b from by
        rw [hinst, Arena.push_fst_binList_other _ _ _ hbc]]
      have hkne : ((sw.instances.binList b).getD s default).id.instance_id
          ≠ id.instance_id := by
        intro hk
        rw [hk, hocc] at hmap
        simp at hmap
      rw [SlotMap.associate_getD_other _ _ _ _ hkne,
        SlotMap.associate_entries_length]
      exact ⟨hklt, hmap⟩

theorem Arena.bin_len_swap_same (a : Arena) (i : SlotIndices) :
    ((a.swap_remove_within_bin i).2).bin_len i.bin = a.bin_len i.bin - 1 := by
  rw [Arena.bin_len_eq_binList, Arena.bin_len_eq_binList,
    Arena.swap_remove_binList_same]
  split
  · rw [List.length_dropLast]
  · rw [List.length_dropLast, List.length_set]

theorem Arena.bin_len_swap_other (a : Arena) (i : SlotIndices) (b' : Nat)
    (h : b' ≠ i.bin) :
    ((a.swap_remove_within_bin i).2).bin_len b' = a.bin_len b' := by
  rw [Arena.bin_len_eq_binList, Arena.bin_len_eq_binList,
    Arena.swap_remove_binList_other _ _ _ h]

/-- The actor found at a populated slot of the bin after a swap-remove:
the removed slot holds the previous tail; every other surviving slot is
unchanged. -/
theorem Arena.swap_getD (a : Arena) (i : SlotIndices) (s : Nat)
    (hvalid : i.slot < a.bin_len i.bin)
    (hs : s < a.bin_len i.bin - 1) :
    (((a.swap_remove_within_bin i).2).binList i.bin).getD s default =
      if s = i.slot
      then (a.binList i.bin).getD ((a.binList i.bin).length - 1) default
      else (a.binList i.bin).getD s default := by
  have hvalid' : i.slot < (a.binList i.bin).length := hvalid
  have hs' : s < (a.binList i.bin).length - 1 := hs
  rw [Arena.swap_remove_binList_same]
  split
  · next hlast =>
    rw [getD_dropLast _ _ _ hs']
    rw [if_neg (by omega)]
  · next hlast =>
    rw [getD_dropLast _ _ _ (by rw [List.length_set]; exact hs')]
    by_cases hsi : s = i.slot
    · rw [if_pos hsi, hsi, getD_set_self _ _ _ _ hvalid']
    · rw [if_neg hsi, getD_set_ne _ _ _ _ _ hsi]

/-- Removing a validly addressed instance preserves the representation
invariant and decrements the count by one. -/
theorem Inv_remove_at_index (sw : Swarm) (i : SlotIndices) (rid : RawID)
    (hInv : Inv sw) (hvalid : i.slot < sw.instances.bin_len i.bin)
    (hrid : rid.instance_id =
      ((sw.instances.binList i.bin).getD i.slot default).id.instance_id) :
    Inv (sw.remove_at_index i rid) ∧
    (sw.remove_at_index i rid).n_instances = sw.n_instances - 1 := by
  obtain ⟨⟨hc1, hc2⟩, hentry, hslot⟩ := hInv
  have hvalid' : i.slot < (sw.instances.binList i.bin).length := hvalid
  have hbin : i.bin < sw.instances.bins.length :=
    sw.instances.bin_lt_of_len_pos _ (Nat.lt_of_le_of_lt (Nat.zero_le _) hvalid)
  obtain ⟨haklt, hamap⟩ := hslot i.bin hbin i.slot hvalid
  have hinst : (sw.remove_at_index i rid).instances =
      (sw.instances.swap_remove_within_bin i).2 :=
    Swarm.remove_at_index_instances sw i rid
  have hn : (sw.remove_at_index i rid).n_instances = sw.n_instances - 1 := by
    rw [Swarm.remove_at_index]
    simp only
    rw [Swarm.swap_remove_n_instances]
  have hsm : (sw.remove_at_index i rid).slot_map =
      ((if i.slot + 1 = (sw.instances.binList i.bin).length
        then sw.slot_map
        else sw.slot_map.associate
          ((sw.instances.binList i.bin).getD
            ((sw.instances.binList i.bin).length - 1) default).id.instance_id
          i)).free rid.instance_id rid.version := by
    rw [Swarm.remove_at_index]
    simp only
    rw [Swarm.swap_remove_slot_map]
  refine ⟨⟨⟨?_, ?_⟩, ?_, ?_⟩, hn⟩
  · show (sw.remove_at_index i rid).n_instances
      = (sw.remove_at_index i rid).instances.sumBinLens
    rw [hn, hinst, sumBinLens_swap _ _ hvalid]
    have hc1' : sw.n_instances = sw.instances.sumBinLens := hc1
    omega
  · show (sw.remove_at_index i rid).n_instances
      = (sw.remove_at_index i rid).slot_map.occupiedCount
    rw [hn, hsm]
    have hc2' : sw.n_instances = sw.slot_map.occupiedCount := hc2
    by_cases hlast : i.slot + 1 = (sw.instances.binList i.bin).length
    · rw [if_pos hlast, occupiedCount_free _ _ _ (by rw [hrid]; exact haklt)
        (by rw [hrid, hamap]; rfl)]
      omega
    · have hslt : i.slot + 1 < (sw.instances.binList i.bin).length := by omega
      have hylen : (sw.instances.binList i.bin).length - 1
          < sw.instances.bin_len i.bin := by
        show _ < (sw.instances.binList i.bin).length
        omega
      obtain ⟨hyklt, hymap⟩ := hslot i.bin hbin _ hylen
      have hayne : ((sw.instances.binList i.bin).getD
          ((sw.instances.binList i.bin).length - 1) default).id.instance_id
          ≠ rid.instance_id := by
        intro he
        rw [hrid] at he
        rw [he] at hymap
        rw [hamap] at hymap
        simp at hymap
        omega
      rw [if_neg hlast,
        occupiedCount_free _ _ _
          (by rw [SlotMap.associate_entries_length, hrid]; exact haklt)
          (by rw [SlotMap.associate_getD_other _ _ _ _ (Ne.symm hayne), hrid,
                hamap]
              rfl),
        occupiedCount_associate_occupied _ _ _ hyklt (by rw [hymap]; rfl)]
      omega
  · intro j hj
    have hlen' : (sw.remove_at_index i rid).slot_map.entries.length
        = sw.slot_map.entries.length := by
      rw [hsm, SlotMap.free]
      simp only
      rw [List.length_set]
      split
      · rfl
      · rw [SlotMap.associate_entries_length]
    have hj' : j < sw.slot_map.entries.length := by omega
    rw [entryOK, hsm]
    by_cases hjak : j = rid.instance_id
    · subst hjak
      rw [SlotMap.free_getD_self]
      · exact trivial
      · split
        · rw [hrid]; exact haklt
        · rw [SlotMap.associate_entries_length, hrid]; exact haklt
    · rw [SlotMap.free_getD_other _ _ _ _ hjak]
      by_cases hlast : i.slot + 1 = (sw.instances.binList i.bin).length
      · rw [if_pos hlast]
        have hold := hentry j hj'
        rw [entryOK] at hold
        rcases hoccj : (sw.slot_map.entries.getD j default).occ with _ | idx
        · exact trivial
        · rw [hoccj] at hold
          obtain ⟨hlt, hkey⟩ := hold
          have hne_slot : (⟨idx.bin, idx.slot⟩ : SlotIndices) ≠ i ∨ True := Or.inr trivial
          have hidxne : ¬ (idx.bin = i.bin ∧ idx.slot = i.slot) := by
            rintro ⟨hbb, hss⟩
            apply hjak
            rw [hrid, ← hbb, ← hss]
            exact hkey.symm
          refine ⟨?_, ?_⟩
          · show idx.slot < (sw.remove_at_index i rid).instances.bin_len idx.bin
            rw [hinst]
            by_cases hbb : idx.bin = i.bin
            · rw [hbb, Arena.bin_len_swap_same]
              have hss : idx.slot ≠ i.slot := fun hx => hidxne ⟨hbb, hx⟩
              rw [hbb] at hlt
              have hlt' : idx.slot < (sw.instances.binList i.bin).length := hlt
              omega
            · rw [Arena.bin_len_swap_other _ _ _ hbb]
              exact hlt
          · show (((sw.remove_at_index i rid).instances.binList idx.bin).getD
              idx.slot default).id.instance_id = j
            rw [hinst]
            by_cases hbb : idx.bin = i.bin
            · have hss : idx.slot ≠ i.slot := fun hx => hidxne ⟨hbb, hx⟩
              rw [hbb] at hlt ⊢
              have hlt' : idx.slot < (sw.instances.binList i.bin).length := hlt
              rw [Arena.swap_getD _ _ _ hvalid (by
                  show idx.slot < (sw.instances.binList i.bin).length - 1
                  omega),
                if_neg hss]
              rw [hbb] at hkey
              exact hkey
            · rw [Arena.swap_remove_binList_other _ _ _ hbb]
              exact hkey
      · have hslt : i.slot + 1 < (sw.instances.binList i.bin).length := by omega
        have hylen : (sw.instances.binList i.bin).length - 1
            < sw.instances.bin_len i.bin := by
          show _ < (sw.instances.binList i.bin).length
          omega
        obtain ⟨hyklt, hymap⟩ := hslot i.bin hbin _ hylen
        rw [if_neg hlast]
        by_cases hjyk : j = ((sw.instances.binList i.bin).getD
            ((sw.instances.binList i.bin).length - 1) default).id.instance_id
        · subst hjyk
          rw [SlotMap.associate_getD_self _ _ _ hyklt]
          refine ⟨?_, ?_⟩
          · show i.slot < (sw.remove_at_index i rid).instances.bin_len i.bin
            rw [hinst, Arena.bin_len_swap_same]
            show i.slot < (sw.instances.binList i.bin).length - 1
            omega
          · show (((sw.remove_at_index i rid).instances.binList i.bin).getD
              i.slot default).id.instance_id =
              ((sw.instances.binList i.bin).getD
                ((sw.instances.binList i.bin).length - 1) default).id.instance_id
            rw [hinst, Arena.swap_getD _ _ _ hvalid (by
                show i.slot < (sw.instances.binList i.bin).length - 1
                omega),
              if_pos rfl]
        · rw [SlotMap.associate_getD_other _ _ _ _ hjyk]
          have hold := hentry j hj'
          rw [entryOK] at hold
          rcases hoccj : (sw.slot_map.entries.getD j default).occ with _ | idx
          · exact trivial
          · rw [hoccj] at hold
            obtain ⟨hlt, hkey⟩ := hold
            have hidxne : ¬ (idx.bin = i.bin ∧ idx.slot = i.slot) := by
              rintro ⟨hbb, hss⟩
              apply hjak
              rw [hrid, ← hbb, ← hss]
              exact hkey.symm
            have hidxny : ¬ (idx.bin = i.bin ∧
                idx.slot = (sw.instances.binList i.bin).length - 1) := by
              rintro ⟨hbb, hss⟩
              apply hjyk
              rw [← hss, ← hbb]
              exact hkey.symm
            refine ⟨?_, ?_⟩
            · show idx.slot < (sw.remove_at_index i rid).instances.bin_len idx.bin
              rw [hinst]
              by_cases hbb : idx.bin = i.bin
              · rw [hbb, Arena.bin_len_swap_same]
                have hss2 : idx.slot ≠ (sw.instances.binList i.bin).length - 1 :=
                  fun hx => hidxny ⟨hbb, hx⟩
                rw [hbb] at hlt
                have hlt' : idx.slot < (sw.instances.binList i.bin).length := hlt
                omega
              · rw [Arena.bin_len_swap_other _ _ _ hbb]
                exact hlt
            · show (((sw.remove_at_index i rid).instances.binList idx.bin).getD
                idx.slot default).id.instance_id = j
              rw [hinst]
              by_cases hbb : idx.bin = i.bin
              · have hss : idx.slot ≠ i.slot := fun hx => hidxne ⟨hbb, hx⟩
                have hss2 : idx.slot ≠ (sw.instances.binList i.bin).length - 1 :=
                  fun hx => hidxny ⟨hbb, hx⟩
                rw [hbb] at hlt ⊢
                have hlt' : idx.slot < (sw.instances.binList i.bin).length := hlt
                rw [Arena.swap_getD _ _ _ hvalid (by
                    show idx.slot < (sw.instances.binList i.bin).length - 1
                    omega),
                  if_neg hss]
                rw [hbb] at hkey
                exact hkey
              · rw [Arena.swap_remove_binList_other _ _ _ hbb]
                exact hkey
  · intro b hb s hs
    have hb2 : b < (sw.instances.swap_remove_within_bin i).2.bins.length := by
      have h3 : (sw.remove_at_index i rid).instances.bins.length
          = (sw.instances.swap_remove_within_bin i).2.bins.length := by
        rw [hinst]
      have hb3 : b < (sw.remove_at_index i rid).instances.bins.length := hb
      omega
    have hb' : b < sw.instances.bins.length := by
      have h3 := Arena.bins_length_swap sw.instances i
      omega
    have hs2 : s < (sw.remove_at_index i rid).instances.bin_len b := hs
    rw [hinst] at hs2
    rw [slotOK, hsm, hinst]
    by_cases hbb : b = i.bin
    · subst hbb
      rw [Arena.bin_len_swap_same] at hs2
      have hs3 : s < (sw.instances.binList i.bin).length - 1 := hs2
      have hsb : s < sw.instances.bin_len i.bin := by
        show s < (sw.instances.binList i.bin).length
        omega
      rw [Arena.swap_getD _ _ _ hvalid hs2]
      by_cases hsi : s = i.slot
      · rw [if_pos hsi]
        have hslt : i.slot + 1 < (sw.instances.binList i.bin).length := by omega
        have hylen : (sw.instances.binList i.bin).length - 1
            < sw.instances.bin_len i.bin := by
          show _ < (sw.instances.binList i.bin).length
          omega
        obtain ⟨hyklt, hymap⟩ := hslot i.bin hb' _ hylen
        have hlastne : ¬ i.slot + 1 = (sw.instances.binList i.bin).length := by omega
        rw [if_neg hlastne]
        have hayne : ((sw.instances.binList i.bin).getD
            ((sw.instances.binList i.bin).length - 1) default).id.instance_id
            ≠ rid.instance_id := by
          intro he
          rw [hrid] at he
          obtain ⟨_, hamap2⟩ := hslot i.bin hb' i.slot hvalid
          rw [he] at hymap
          rw [hamap2] at hymap
          simp at hymap
          omega
        refine ⟨?_, ?_⟩
        · rw [SlotMap.free]
          simp only
          rw [List.length_set, SlotMap.associate_entries_length]
          exact hyklt
        · rw [SlotMap.free_getD_other _ _ _ _ hayne,
            SlotMap.associate_getD_self _ _ _ hyklt, hsi]
      · rw [if_neg hsi]
        obtain ⟨hsklt, hsmap⟩ := hslot i.bin hb' s hsb
        have hsane : ((sw.instances.binList i.bin).getD s default).id.instance_id
            ≠ rid.instance_id := by
          intro he
          rw [hrid] at he
          obtain ⟨_, hamap2⟩ := hslot i.bin hb' i.slot hvalid
          rw [he] at hsmap
          rw [hamap2] at hsmap
          simp at hsmap
          exact hsi hsmap.symm
        by_cases hlast : i.slot + 1 = (sw.instances.binList i.bin).length
        · rw [if_pos hlast]
          refine ⟨?_, ?_⟩
          · rw [SlotMap.free]
            simp only
            rw [List.length_set]
            exact hsklt
          · rw [SlotMap.free_getD_other _ _ _ _ hsane]
            exact hsmap
        · have hslt : i.slot + 1 < (sw.instances.binList i.bin).length := by omega
          have hylen : (sw.instances.binList i.bin).length - 1
              < sw.instances.bin_len i.bin := by
            show _ < (sw.instances.binList i.bin).length
            omega
          obtain ⟨hyklt, hymap⟩ := hslot i.bin hb' _ hylen
          have hsyne : ((sw.instances.binList i.bin).getD s default).id.instance_id
              ≠ ((sw.instances.binList i.bin).getD
                ((sw.instances.binList i.bin).length - 1) default).id.instance_id := by
            intro he
            rw [he] at hsmap
            rw [hymap] at hsmap
            simp at hsmap
            omega
          rw [if_neg hlast]
          refine ⟨?_, ?_⟩
          · rw [SlotMap.free]
            simp only
            rw [List.length_set, SlotMap.associate_entries_length]
            exact hsklt
          · rw [SlotMap.free_getD_other _ _ _ _ hsane,
              SlotMap.associate_getD_other _ _ _ _ hsyne]
            exact hsmap
    · rw [Arena.bin_len_swap_other _ _ _ hbb] at hs2
      rw [Arena.swap_remove_binList_other _ _ _ hbb]
      obtain ⟨hsklt, hsmap⟩ := hslot b hb' s hs2
      have hsane : ((sw.instances.binList b).getD s default).id.instance_id
          ≠ rid.instance_id := by
        intro he
        rw [hrid] at he
        obtain ⟨_, hamap2⟩ := hslot i.bin hbin i.slot hvalid
        rw [he] at hsmap
        rw [hamap2] at hsmap
        simp at hsmap
        exact hbb hsmap.1.symm
      by_cases hlast : i.slot + 1 = (sw.instances.binList i.bin).length
      · rw [if_pos hlast]
        refine ⟨?_, ?_⟩
        · rw [SlotMap.free]
          simp only
          rw [List.length_set]
          exact hsklt
        · rw [SlotMap.free_getD_other _ _ _ _ hsane]
          exact hsmap
      · have hslt : i.slot + 1 < (sw.instances.binList i.bin).length := by omega
        have hylen : (sw.instances.binList i.bin).length - 1
            < sw.instances.bin_len i.bin := by
          show _ < (sw.instances.binList i.bin).length
          omega
        obtain ⟨hyklt, hymap⟩ := hslot i.bin hbin _ hylen
        have hsyne : ((sw.instances.binList b).getD s default).id.instance_id
            ≠ ((sw.instances.binList i.bin).getD
              ((sw.instances.binList i.bin).length - 1) default).id.instance_id := by
          intro he
          rw [he] at hsmap
          rw [hymap] at hsmap
          simp at hsmap
          exact hbb hsmap.1.symm
        rw [if_neg hlast]
        refine ⟨?_, ?_⟩
        · rw [SlotMap.free]
          simp only
          rw [List.length_set, SlotMap.associate_entries_length]
          exact hsklt
        · rw [SlotMap.free_getD_other _ _ _ _ hsane,
            SlotMap.associate_getD_other _ _ _ _ hsyne]
          exact hsmap

theorem SlotMap.associate_associate (m : SlotMap) (id : Nat)
    (x y : SlotIndices) (h : id < m.entries.length) :
    (m.associate id x).associate id y = m.associate id y := by
  rw [SlotMap.associate, SlotMap.associate, SlotMap.associate]
  simp only
  rw [List.set_set]
  have hv : ((m.entries.set id
      (⟨some x, (m.entries.getD id default).version⟩ : SlotEntry)).getD id
      default).version = (m.entries.getD id default).version := by
    rw [getD_set_self _ _ _ _ h]
  rw [hv]

theorem SlotMap.associate_self_eq (m : SlotMap) (id : Nat) (idx : SlotIndices)
    (h : id < m.entries.length)
    (hocc : (m.entries.getD id default).occ = some idx) :
    m.associate id idx = m := by
  rw [SlotMap.associate]
  have hval : (⟨some idx, (m.entries.getD id default).version⟩ : SlotEntry)
      = m.entries.getD id default := by
    rw [← hocc]
  rw [hval, set_getD_self _ _ _ h]

theorem Swarm.resize_at_index_slot_map (sw : Swarm) (old_i : SlotIndices) :
    (sw.resize_at_index old_i).slot_map =
      ((sw.add_with_id (sw.instances.get old_i)
        (sw.instances.get old_i).id).swap_remove old_i).slot_map := by
  rw [Swarm.resize_at_index]

theorem Swarm.resize_at_index_n (sw : Swarm) (old_i : SlotIndices) :
    (sw.resize_at_index old_i).n_instances = sw.n_instances := by
  rw [Swarm.resize_at_index, Swarm.swap_remove_n_instances,
    Swarm.add_with_id_n_instances]

/-- A resize whose new size class is the current bin collapses to writing
the re-emplaced copy back into its own slot: the pushed tail copy is
swapped back into the freed slot and the slot map is re-associated to its
original value. -/
theorem resize_same_bin_eq (sw : Swarm) (i : SlotIndices)
    (hvalid : i.slot < sw.instances.bin_len i.bin)
    (hcb : sizeClass sw.instances.typical
      (emplace (sw.instances.get i) (sw.instances.get i).id).total_size_bytes
      = i.bin)
    (hmap : (sw.slot_map.entries.getD
      (sw.instances.get i).id.instance_id default).occ = some i)
    (hklt : (sw.instances.get i).id.instance_id < sw.slot_map.entries.length) :
    sw.resize_at_index i =
      { sw with instances := (sw.instances.setAt i
          (emplace (sw.instances.get i) (sw.instances.get i).id)) } := by
  have hvalid' : i.slot < (sw.instances.binList i.bin).length := hvalid
  have hbinlt : i.bin < sw.instances.bins.length :=
    sw.instances.bin_lt_of_len_pos _ (Nat.lt_of_le_of_lt (Nat.zero_le _) hvalid)
  have hbinsA : ((sw.instances.push (emplace (sw.instances.get i)
      (sw.instances.get i).id)).1).binList i.bin =
      sw.instances.binList i.bin ++ [emplace (sw.instances.get i)
        (sw.instances.get i).id] := by
    have hp := Arena.push_fst_binList_same sw.instances
      (emplace (sw.instances.get i) (sw.instances.get i).id)
    rw [hcb] at hp
    exact hp
  have hcond : ¬ (i.slot + 1 = (sw.instances.binList i.bin
      ++ [emplace (sw.instances.get i) (sw.instances.get i).id]).length) := by
    rw [List.length_append]
    simp only [List.length_cons, List.length_nil]
    omega
  have hlaste : ((sw.instances.binList i.bin
      ++ [emplace (sw.instances.get i) (sw.instances.get i).id]).getD
      ((sw.instances.binList i.bin
        ++ [emplace (sw.instances.get i) (sw.instances.get i).id]).length - 1)
      default) = emplace (sw.instances.get i) (sw.instances.get i).id := by
    rw [List.length_append]
    exact getD_append_last _ _ _
  have hPbins : ((sw.instances.push (emplace (sw.instances.get i)
      (sw.instances.get i).id)).1).bins =
      sw.instances.bins.set i.bin (sw.instances.binList i.bin
        ++ [emplace (sw.instances.get i) (sw.instances.get i).id]) := by
    rw [Arena.push]
    simp only
    rw [hcb, show i.bin + 1 - sw.instances.bins.length = 0 from by omega,
      List.replicate_zero, List.append_nil]
    rfl
  have hPget : ((sw.instances.push (emplace (sw.instances.get i)
      (sw.instances.get i).id)).1).bins.getD i.bin [] =
      sw.instances.binList i.bin
        ++ [emplace (sw.instances.get i) (sw.instances.get i).id] := by
    rw [hPbins]
    exact getD_set_self _ _ _ _ hbinlt
  have hswapP : (((sw.instances.push (emplace (sw.instances.get i)
      (sw.instances.get i).id)).1).swap_remove_within_bin i).2 =
      sw.instances.setAt i (emplace (sw.instances.get i)
        (sw.instances.get i).id) := by
    rw [Arena.swap_remove_within_bin]
    simp only [hPget]
    rw [if_neg hcond]
    simp only
    rw [hlaste, set_append_left _ _ _ _ hvalid', List.dropLast_concat, hPbins,
      List.set_set]
    rfl
  have hinst : (sw.resize_at_index i).instances =
      sw.instances.setAt i (emplace (sw.instances.get i)
        (sw.instances.get i).id) := by
    rw [Swarm.resize_at_index_instances, hswapP]
  have hsm : (sw.resize_at_index i).slot_map = sw.slot_map := by
    rw [Swarm.resize_at_index_slot_map, Swarm.swap_remove_slot_map,
      Swarm.add_with_id_instances, hbinsA, if_neg hcond, hlaste, emplace_id,
      Swarm.add_with_id_slot_map, Arena.push_snd, hcb,
      SlotMap.associate_associate _ _ _ _ hklt,
      SlotMap.associate_self_eq _ _ _ hklt hmap]
  have hn : (sw.resize_at_index i).n_instances = sw.n_instances :=
    Swarm.resize_at_index_n sw i
  have hfin : sw.resize_at_index i =
      ⟨sw.instances.setAt i (emplace (sw.instances.get i)
        (sw.instances.get i).id), sw.slot_map, sw.n_instances⟩ := by
    rw [← hinst, ← hsm, ← hn]
  exact hfin

/-- A forced resize at a validly addressed slot preserves the
representation invariant and leaves `n_instances` unchanged: the instance
is re-added under its own key and the old slot is swap-removed. -/
theorem Inv_resize_at_index (sw : Swarm) (i : SlotIndices)
    (hInv : Inv sw) (hvalid : i.slot < sw.instances.bin_len i.bin) :
    Inv (sw.resize_at_index i) ∧
    (sw.resize_at_index i).n_instances = sw.n_instances := by
  obtain ⟨⟨hc1, hc2⟩, hentry, hslot⟩ := hInv
  have hvalid' : i.slot < (sw.instances.binList i.bin).length := hvalid
  have hbin : i.bin < sw.instances.bins.length :=
    sw.instances.bin_lt_of_len_pos _ (Nat.lt_of_le_of_lt (Nat.zero_le _) hvalid)
  obtain ⟨haklt, hamap⟩ := hslot i.bin hbin i.slot hvalid
  have hkeyg : (sw.instances.get i).id.instance_id = ((sw.instances.binList i.bin).getD i.slot default).id.instance_id := rfl
  by_cases hcb : sizeClass sw.instances.typical (emplace (sw.instances.get i) (sw.instances.get i).id).total_size_bytes = i.bin
  · -- the copy lands back in the same bin: the resize is a slot write
    have hamap2 : (sw.slot_map.entries.getD
        (sw.instances.get i).id.instance_id default).occ = some i := by
      rw [hkeyg]
      exact hamap
    have haklt2 : (sw.instances.get i).id.instance_id
        < sw.slot_map.entries.length := by
      rw [hkeyg]
      exact haklt
    rw [resize_same_bin_eq sw i hvalid hcb hamap2 haklt2]
    refine ⟨?_, rfl⟩
    exact Inv_setAt sw i _ ⟨⟨hc1, hc2⟩, hentry, hslot⟩ hvalid
      (by rw [emplace_id, Arena.get_eq_binList])
  · -- the copy lands in a different bin
    have hPbi : ((sw.instances.push (emplace (sw.instances.get i) (sw.instances.get i).id)).1).binList i.bin = sw.instances.binList i.bin :=
      Arena.push_fst_binList_other _ _ _ (Ne.symm hcb)
    have hPleni : ((sw.instances.push (emplace (sw.instances.get i) (sw.instances.get i).id)).1).bin_len i.bin = sw.instances.bin_len i.bin :=
      Arena.bin_len_push_other _ _ _ (Ne.symm hcb)
    have hvalidP : i.slot < ((sw.instances.push (emplace (sw.instances.get i) (sw.instances.get i).id)).1).bin_len i.bin := by
      rw [hPleni]
      exact hvalid
    have hinst : (sw.resize_at_index i).instances = ((sw.instances.push (emplace (sw.instances.get i) (sw.instances.get i).id)).1.swap_remove_within_bin i).2 :=
      Swarm.resize_at_index_instances sw i
    have hRC : (((sw.instances.push (emplace (sw.instances.get i) (sw.instances.get i).id)).1.swap_remove_within_bin i).2).binList (sizeClass sw.instances.typical (emplace (sw.instances.get i) (sw.instances.get i).id).total_size_bytes) = sw.instances.binList (sizeClass sw.instances.typical (emplace (sw.instances.get i) (sw.instances.get i).id).total_size_bytes) ++ [emplace (sw.instances.get i) (sw.instances.get i).id] := by
      rw [Arena.swap_remove_binList_other _ _ _ hcb]
      exact Arena.push_fst_binList_same _ _
    have hRlenC : (((sw.instances.push (emplace (sw.instances.get i) (sw.instances.get i).id)).1.swap_remove_within_bin i).2).bin_len (sizeClass sw.instances.typical (emplace (sw.instances.get i) (sw.instances.get i).id).total_size_bytes) = (sw.instances.binList (sizeClass sw.instances.typical (emplace (sw.instances.get i) (sw.instances.get i).id).total_size_bytes)).length + 1 := by
      rw [Arena.bin_len_eq_binList, hRC, List.length_append]
      rfl
    have hRleni : (((sw.instances.push (emplace (sw.instances.get i) (sw.instances.get i).id)).1.swap_remove_within_bin i).2).bin_len i.bin = (sw.instances.binList i.bin).length - 1 := by
      rw [Arena.bin_len_swap_same, hPleni]
      rfl
    have hRother : ∀ b', b' ≠ sizeClass sw.instances.typical (emplace (sw.instances.get i) (sw.instances.get i).id).total_size_bytes → b' ≠ i.bin →
        (((sw.instances.push (emplace (sw.instances.get i) (sw.instances.get i).id)).1.swap_remove_within_bin i).2).binList b' = sw.instances.binList b' := by
      intro b' h1 h2
      rw [Arena.swap_remove_binList_other _ _ _ h2,
        Arena.push_fst_binList_other _ _ _ h1]
    have hRotherLen : ∀ b', b' ≠ sizeClass sw.instances.typical (emplace (sw.instances.get i) (sw.instances.get i).id).total_size_bytes → b' ≠ i.bin →
        (((sw.instances.push (emplace (sw.instances.get i) (sw.instances.get i).id)).1.swap_remove_within_bin i).2).bin_len b' = sw.instances.bin_len b' := by
      intro b' h1 h2
      rw [Arena.bin_len_eq_binList, Arena.bin_len_eq_binList, hRother b' h1 h2]
    have hRgeti : ∀ s, s < (sw.instances.binList i.bin).length - 1 →
        ((((sw.instances.push (emplace (sw.instances.get i) (sw.instances.get i).id)).1.swap_remove_within_bin i).2).binList i.bin).getD s default =
        (if s = i.slot
         then (sw.instances.binList i.bin).getD
           ((sw.instances.binList i.bin).length - 1) default
         else (sw.instances.binList i.bin).getD s default) := by
      intro s hs
      have h1 := Arena.swap_getD ((sw.instances.push (emplace (sw.instances.get i) (sw.instances.get i).id)).1) i s hvalidP (by rw [hPleni]; exact hs)
      rw [hPbi] at h1
      exact h1
    have hsm : (sw.resize_at_index i).slot_map =
        (if i.slot + 1 = (sw.instances.binList i.bin).length
         then sw.slot_map.associate (sw.instances.get i).id.instance_id
           ⟨sizeClass sw.instances.typical (emplace (sw.instances.get i) (sw.instances.get i).id).total_size_bytes, (sw.instances.binList (sizeClass sw.instances.typical (emplace (sw.instances.get i) (sw.instances.get i).id).total_size_bytes)).length⟩
         else (sw.slot_map.associate (sw.instances.get i).id.instance_id
           ⟨sizeClass sw.instances.typical (emplace (sw.instances.get i) (sw.instances.get i).id).total_size_bytes, (sw.instances.binList (sizeClass sw.instances.typical (emplace (sw.instances.get i) (sw.instances.get i).id).total_size_bytes)).length⟩).associate ((sw.instances.binList i.bin).getD ((sw.instances.binList i.bin).length - 1) default).id.instance_id i) := by
      rw [Swarm.resize_at_index_slot_map, Swarm.swap_remove_slot_map,
        Swarm.add_with_id_instances, hPbi, Swarm.add_with_id_slot_map,
        Arena.push_snd]
    rw [hkeyg] at hsm
    have hsum : (((sw.instances.push (emplace (sw.instances.get i) (sw.instances.get i).id)).1.swap_remove_within_bin i).2).sumBinLens = sw.instances.sumBinLens := by
      rw [sumBinLens_swap _ _ hvalidP, sumBinLens_push]
      omega
    have hCnew1 : (sw.instances.binList (sizeClass sw.instances.typical (emplace (sw.instances.get i) (sw.instances.get i).id).total_size_bytes)).length < (((sw.instances.push (emplace (sw.instances.get i) (sw.instances.get i).id)).1.swap_remove_within_bin i).2).bin_len (sizeClass sw.instances.typical (emplace (sw.instances.get i) (sw.instances.get i).id).total_size_bytes) := by
      rw [hRlenC]
      omega
    have hCnew2 : ((((sw.instances.push (emplace (sw.instances.get i) (sw.instances.get i).id)).1.swap_remove_within_bin i).2).binList (sizeClass sw.instances.typical (emplace (sw.instances.get i) (sw.instances.get i).id).total_size_bytes)).getD (sw.instances.binList (sizeClass sw.instances.typical (emplace (sw.instances.get i) (sw.instances.get i).id).total_size_bytes)).length default = emplace (sw.instances.get i) (sw.instances.get i).id := by
      rw [hRC]
      exact getD_append_last _ _ _
    refine ⟨⟨⟨?_, ?_⟩, ?_, ?_⟩, Swarm.resize_at_index_n sw i⟩
    · show (sw.resize_at_index i).n_instances
        = (sw.resize_at_index i).instances.sumBinLens
      rw [Swarm.resize_at_index_n, hinst, hsum]
      exact hc1
    · show (sw.resize_at_index i).n_instances
        = (sw.resize_at_index i).slot_map.occupiedCount
      rw [Swarm.resize_at_index_n, hsm]
      by_cases hlast : i.slot + 1 = (sw.instances.binList i.bin).length
      · rw [if_pos hlast,
          occupiedCount_associate_occupied _ _ _ haklt (by rw [hamap]; rfl)]
        exact hc2
      · have hylen : (sw.instances.binList i.bin).length - 1
            < sw.instances.bin_len i.bin := by
          show _ < (sw.instances.binList i.bin).length
          omega
        obtain ⟨hyklt, hymap⟩ := hslot i.bin hbin _ hylen
        have hykane : ((sw.instances.binList i.bin).getD ((sw.instances.binList i.bin).length - 1) default).id.instance_id ≠ ((sw.instances.binList i.bin).getD i.slot default).id.instance_id := by
          intro he
          rw [he] at hymap
          rw [hamap] at hymap
          simp at hymap
          omega
        rw [if_neg hlast,
          occupiedCount_associate_occupied _ _ _
            (by rw [SlotMap.associate_entries_length]; exact hyklt)
            (by rw [SlotMap.associate_getD_other _ _ _ _ hykane, hymap]; rfl),
          occupiedCount_associate_occupied _ _ _ haklt (by rw [hamap]; rfl)]
        exact hc2
    · intro j hj
      have hlen' : (sw.resize_at_index i).slot_map.entries.length
          = sw.slot_map.entries.length := by
        rw [hsm]
        split
        · rw [SlotMap.associate_entries_length]
        · rw [SlotMap.associate_entries_length, SlotMap.associate_entries_length]
      have hj' : j < sw.slot_map.entries.length := by omega
      rw [entryOK, hsm]
      by_cases hlast : i.slot + 1 = (sw.instances.binList i.bin).length
      · rw [if_pos hlast]
        by_cases hjak : j = ((sw.instances.binList i.bin).getD i.slot default).id.instance_id
        · subst hjak
          rw [SlotMap.associate_getD_self _ _ _ haklt]
          refine ⟨?_, ?_⟩
          · show (sw.instances.binList (sizeClass sw.instances.typical (emplace (sw.instances.get i) (sw.instances.get i).id).total_size_bytes)).length < (sw.resize_at_index i).instances.bin_len (sizeClass sw.instances.typical (emplace (sw.instances.get i) (sw.instances.get i).id).total_size_bytes)
            rw [hinst]
            exact hCnew1
          · show (((sw.resize_at_index i).instances.binList (sizeClass sw.instances.typical (emplace (sw.instances.get i) (sw.instances.get i).id).total_size_bytes)).getD
              (sw.instances.binList (sizeClass sw.instances.typical (emplace (sw.instances.get i) (sw.instances.get i).id).total_size_bytes)).length default).id.instance_id = ((sw.instances.binList i.bin).getD i.slot default).id.instance_id
            rw [hinst, hCnew2, emplace_id]
            exact hkeyg
        · rw [SlotMap.associate_getD_other _ _ _ _ hjak]
          have hold := hentry j hj'
          rw [entryOK] at hold
          rcases hoccj : (sw.slot_map.entries.getD j default).occ with _ | idx
          · exact trivial
          · rw [hoccj] at hold
            obtain ⟨hlt, hkey⟩ := hold
            have hidxne : ¬ (idx.bin = i.bin ∧ idx.slot = i.slot) := by
              rintro ⟨hbb, hss⟩
              apply hjak
              rw [← hbb, ← hss]
              exact hkey.symm
            refine ⟨?_, ?_⟩
            · show idx.slot < (sw.resize_at_index i).instances.bin_len idx.bin
              rw [hinst]
              by_cases hbb : idx.bin = i.bin
              · rw [hbb, hRleni]
                have hss : idx.slot ≠ i.slot := fun hx => hidxne ⟨hbb, hx⟩
                rw [hbb] at hlt
                have hlt' : idx.slot < (sw.instances.binList i.bin).length := hlt
                omega
              · by_cases hbC : idx.bin = sizeClass sw.instances.typical (emplace (sw.instances.get i) (sw.instances.get i).id).total_size_bytes
                · rw [hbC, hRlenC]
                  rw [hbC] at hlt
                  have hlt' : idx.slot < (sw.instances.binList (sizeClass sw.instances.typical (emplace (sw.instances.get i) (sw.instances.get i).id).total_size_bytes)).length := hlt
                  omega
                · rw [hRotherLen idx.bin hbC hbb]
                  exact hlt
            · show (((sw.resize_at_index i).instances.binList idx.bin).getD
                idx.slot default).id.instance_id = j
              rw [hinst]
              by_cases hbb : idx.bin = i.bin
              · have hss : idx.slot ≠ i.slot := fun hx => hidxne ⟨hbb, hx⟩
                rw [hbb] at hlt ⊢
                have hlt' : idx.slot < (sw.instances.binList i.bin).length := hlt
                rw [hRgeti idx.slot (by omega), if_neg hss]
                rw [hbb] at hkey
                exact hkey
              · by_cases hbC : idx.bin = sizeClass sw.instances.typical (emplace (sw.instances.get i) (sw.instances.get i).id).total_size_bytes
                · rw [hbC] at hlt ⊢
                  have hlt' : idx.slot < (sw.instances.binList (sizeClass sw.instances.typical (emplace (sw.instances.get i) (sw.instances.get i).id).total_size_bytes)).length := hlt
                  rw [hRC, getD_append_left _ _ _ _ hlt']
                  rw [hbC] at hkey
                  exact hkey
                · rw [hRother idx.bin hbC hbb]
                  exact hkey
      · have hylen : (sw.instances.binList i.bin).length - 1
            < sw.instances.bin_len i.bin := by
          show _ < (sw.instances.binList i.bin).length
          omega
        obtain ⟨hyklt, hymap⟩ := hslot i.bin hbin _ hylen
        have hykane : ((sw.instances.binList i.bin).getD ((sw.instances.binList i.bin).length - 1) default).id.instance_id ≠ ((sw.instances.binList i.bin).getD i.slot default).id.instance_id := by
          intro he
          rw [he] at hymap
          rw [hamap] at hymap
          simp at hymap
          omega
        rw [if_neg hlast]
        by_cases hjak : j = ((sw.instances.binList i.bin).getD i.slot default).id.instance_id
        · subst hjak
          rw [SlotMap.associate_getD_other _ _ _ _ (Ne.symm hykane),
            SlotMap.associate_getD_self _ _ _ haklt]
          refine ⟨?_, ?_⟩
          · show (sw.instances.binList (sizeClass sw.instances.typical (emplace (sw.instances.get i) (sw.instances.get i).id).total_size_bytes)).length < (sw.resize_at_index i).instances.bin_len (sizeClass sw.instances.typical (emplace (sw.instances.get i) (sw.instances.get i).id).total_size_bytes)
            rw [hinst]
            exact hCnew1
          · show (((sw.resize_at_index i).instances.binList (sizeClass sw.instances.typical (emplace (sw.instances.get i) (sw.instances.get i).id).total_size_bytes)).getD
              (sw.instances.binList (sizeClass sw.instances.typical (emplace (sw.instances.get i) (sw.instances.get i).id).total_size_bytes)).length default).id.instance_id = ((sw.instances.binList i.bin).getD i.slot default).id.instance_id
            rw [hinst, hCnew2, emplace_id]
            exact hkeyg
        · by_cases hjyk : j = ((sw.instances.binList i.bin).getD ((sw.instances.binList i.bin).length - 1) default).id.instance_id
          · subst hjyk
            rw [SlotMap.associate_getD_self _ _ _
              (by rw [SlotMap.associate_entries_length]; exact hyklt)]
            refine ⟨?_, ?_⟩
            · show i.slot < (sw.resize_at_index i).instances.bin_len i.bin
              rw [hinst, hRleni]
              omega
            · show (((sw.resize_at_index i).instances.binList i.bin).getD
                i.slot default).id.instance_id = ((sw.instances.binList i.bin).getD ((sw.instances.binList i.bin).length - 1) default).id.instance_id
              rw [hinst, hRgeti i.slot (by omega), if_pos rfl]
          · rw [SlotMap.associate_getD_other _ _ _ _ hjyk,
              SlotMap.associate_getD_other _ _ _ _ hjak]
            have hold := hentry j hj'
            rw [entryOK] at hold
            rcases hoccj : (sw.slot_map.entries.getD j default).occ with _ | idx
            · exact trivial
            · rw [hoccj] at hold
              obtain ⟨hlt, hkey⟩ := hold
              have hidxne : ¬ (idx.bin = i.bin ∧ idx.slot = i.slot) := by
                rintro ⟨hbb, hss⟩
                apply hjak
                rw [← hbb, ← hss]
                exact hkey.symm
              have hidxny : ¬ (idx.bin = i.bin ∧
                  idx.slot = (sw.instances.binList i.bin).length - 1) := by
                rintro ⟨hbb, hss⟩
                apply hjyk
                rw [← hss, ← hbb]
                exact hkey.symm
              refine ⟨?_, ?_⟩
              · show idx.slot < (sw.resize_at_index i).instances.bin_len idx.bin
                rw [hinst]
                by_cases hbb : idx.bin = i.bin
                · rw [hbb, hRleni]
                  have hss2 : idx.slot ≠ (sw.instances.binList i.bin).length - 1 :=
                    fun hx => hidxny ⟨hbb, hx⟩
                  rw [hbb] at hlt
                  have hlt' : idx.slot < (sw.instances.binList i.bin).length := hlt
                  omega
                · by_cases hbC : idx.bin = sizeClass sw.instances.typical (emplace (sw.instances.get i) (sw.instances.get i).id).total_size_bytes
                  · rw [hbC, hRlenC]
                    rw [hbC] at hlt
                    have hlt' : idx.slot < (sw.instances.binList (sizeClass sw.instances.typical (emplace (sw.instances.get i) (sw.instances.get i).id).total_size_bytes)).length := hlt
                    omega
                  · rw [hRotherLen idx.bin hbC hbb]
                    exact hlt
              · show (((sw.resize_at_index i).instances.binList idx.bin).getD
                  idx.slot default).id.instance_id = j
                rw [hinst]
                by_cases hbb : idx.bin = i.bin
                · have hss : idx.slot ≠ i.slot := fun hx => hidxne ⟨hbb, hx⟩
                  rw [hbb] at hlt ⊢
                  have hlt' : idx.slot < (sw.instances.binList i.bin).length := hlt
                  rw [hRgeti idx.slot (by omega), if_neg hss]
                  rw [hbb] at hkey
                  exact hkey
                · by_cases hbC : idx.bin = sizeClass sw.instances.typical (emplace (sw.instances.get i) (sw.instances.get i).id).total_size_bytes
                  · rw [hbC] at hlt ⊢
                    have hlt' : idx.slot < (sw.instances.binList (sizeClass sw.instances.typical (emplace (sw.instances.get i) (sw.instances.get i).id).total_size_bytes)).length := hlt
                    rw [hRC, getD_append_left _ _ _ _ hlt']
                    rw [hbC] at hkey
                    exact hkey
                  · rw [hRother idx.bin hbC hbb]
                    exact hkey
    · intro b hb s hs
      rw [hinst] at hs
      rw [slotOK, hsm, hinst]
      by_cases hbC : b = sizeClass sw.instances.typical (emplace (sw.instances.get i) (sw.instances.get i).id).total_size_bytes
      · subst hbC
        rw [hRlenC] at hs
        by_cases hsl : s = (sw.instances.binList (sizeClass sw.instances.typical (emplace (sw.instances.get i) (sw.instances.get i).id).total_size_bytes)).length
        · subst hsl
          rw [hRC, getD_append_last, emplace_id, hkeyg]
          by_cases hlast : i.slot + 1 = (sw.instances.binList i.bin).length
          · rw [if_pos hlast]
            refine ⟨?_, ?_⟩
            · rw [SlotMap.associate_entries_length]
              exact haklt
            · rw [SlotMap.associate_getD_self _ _ _ haklt]
          · have hylen : (sw.instances.binList i.bin).length - 1
                < sw.instances.bin_len i.bin := by
              show _ < (sw.instances.binList i.bin).length
              omega
            obtain ⟨hyklt, hymap⟩ := hslot i.bin hbin _ hylen
            have hykane : ((sw.instances.binList i.bin).getD ((sw.instances.binList i.bin).length - 1) default).id.instance_id ≠ ((sw.instances.binList i.bin).getD i.slot default).id.instance_id := by
              intro he
              rw [he] at hymap
              rw [hamap] at hymap
              simp at hymap
              omega
            rw [if_neg hlast]
            refine ⟨?_, ?_⟩
            · rw [SlotMap.associate_entries_length,
                SlotMap.associate_entries_length]
              exact haklt
            · rw [SlotMap.associate_getD_other _ _ _ _ (Ne.symm hykane),
                SlotMap.associate_getD_self _ _ _ haklt]
        · have hslt2 : s < (sw.instances.binList (sizeClass sw.instances.typical (emplace (sw.instances.get i) (sw.instances.get i).id).total_size_bytes)).length := by omega
          have hCbin : sizeClass sw.instances.typical (emplace (sw.instances.get i) (sw.instances.get i).id).total_size_bytes < sw.instances.bins.length :=
            sw.instances.bin_lt_of_len_pos _
              (Nat.lt_of_le_of_lt (Nat.zero_le _) hslt2)
          obtain ⟨hsklt, hsmap⟩ := hslot _ hCbin s hslt2
          rw [hRC, getD_append_left _ _ _ _ hslt2]
          have hsane : ((sw.instances.binList (sizeClass sw.instances.typical (emplace (sw.instances.get i) (sw.instances.get i).id).total_size_bytes)).getD s default).id.instance_id ≠ ((sw.instances.binList i.bin).getD i.slot default).id.instance_id := by
            intro he
            rw [he] at hsmap
            rw [hamap] at hsmap
            simp at hsmap
            exact hcb hsmap.1.symm
          by_cases hlast : i.slot + 1 = (sw.instances.binList i.bin).length
          · rw [if_pos hlast]
            refine ⟨?_, ?_⟩
            · rw [SlotMap.associate_entries_length]
              exact hsklt
            · rw [SlotMap.associate_getD_other _ _ _ _ hsane]
              exact hsmap
          · have hylen : (sw.instances.binList i.bin).length - 1
                < sw.instances.bin_len i.bin := by
              show _ < (sw.instances.binList i.bin).length
              omega
            obtain ⟨hyklt, hymap⟩ := hslot i.bin hbin _ hylen
            have hsyne : ((sw.instances.binList (sizeClass sw.instances.typical (emplace (sw.instances.get i) (sw.instances.get i).id).total_size_bytes)).getD s default).id.instance_id ≠ ((sw.instances.binList i.bin).getD ((sw.instances.binList i.bin).length - 1) default).id.instance_id := by
              intro he
              rw [he] at hsmap
              rw [hymap] at hsmap
              simp at hsmap
              exact hcb hsmap.1.symm
            rw [if_neg hlast]
            refine ⟨?_, ?_⟩
            · rw [SlotMap.associate_entries_length,
                SlotMap.associate_entries_length]
              exact hsklt
            · rw [SlotMap.associate_getD_other _ _ _ _ hsyne,
                SlotMap.associate_getD_other _ _ _ _ hsane]
              exact hsmap
      · by_cases hbb : b = i.bin
        · subst hbb
          rw [hRleni] at hs
          rw [hRgeti s hs]
          by_cases hsi : s = i.slot
          · rw [if_pos hsi]
            have hlastne : ¬ (i.slot + 1 = (sw.instances.binList i.bin).length) := by
              omega
            rw [if_neg hlastne]
            have hylen : (sw.instances.binList i.bin).length - 1
                < sw.instances.bin_len i.bin := by
              show _ < (sw.instances.binList i.bin).length
              omega
            obtain ⟨hyklt, hymap⟩ := hslot i.bin hbin _ hylen
            refine ⟨?_, ?_⟩
            · rw [SlotMap.associate_entries_length,
                SlotMap.associate_entries_length]
              exact hyklt
            · rw [SlotMap.associate_getD_self _ _ _
                (by rw [SlotMap.associate_entries_length]; exact hyklt), hsi]
          · rw [if_neg hsi]
            have hsb : s < sw.instances.bin_len i.bin := by
              show s < (sw.instances.binList i.bin).length
              omega
            obtain ⟨hsklt, hsmap⟩ := hslot i.bin hbin s hsb
            have hsane : ((sw.instances.binList i.bin).getD s
                default).id.instance_id ≠ ((sw.instances.binList i.bin).getD i.slot default).id.instance_id := by
              intro he
              rw [he] at hsmap
              rw [hamap] at hsmap
              simp at hsmap
              exact hsi hsmap.symm
            by_cases hlast : i.slot + 1 = (sw.instances.binList i.bin).length
            · rw [if_pos hlast]
              refine ⟨?_, ?_⟩
              · rw [SlotMap.associate_entries_length]
                exact hsklt
              · rw [SlotMap.associate_getD_other _ _ _ _ hsane]
                exact hsmap
            · have hylen : (sw.instances.binList i.bin).length - 1
                  < sw.instances.bin_len i.bin := by
                show _ < (sw.instances.binList i.bin).length
                omega
              obtain ⟨hyklt, hymap⟩ := hslot i.bin hbin _ hylen
              have hsyne : ((sw.instances.binList i.bin).getD s
                  default).id.instance_id ≠ ((sw.instances.binList i.bin).getD ((sw.instances.binList i.bin).length - 1) default).id.instance_id := by
                intro he
                rw [he] at hsmap
                rw [hymap] at hsmap
                simp at hsmap
                omega
              rw [if_neg hlast]
              refine ⟨?_, ?_⟩
              · rw [SlotMap.associate_entries_length,
                  SlotMap.associate_entries_length]
                exact hsklt
              · rw [SlotMap.associate_getD_other _ _ _ _ hsyne,
                  SlotMap.associate_getD_other _ _ _ _ hsane]
                exact hsmap
        · rw [hRotherLen b hbC hbb] at hs
          rw [hRother b hbC hbb]
          by_cases hbA : b < sw.instances.bins.length
          · obtain ⟨hsklt, hsmap⟩ := hslot b hbA s hs
            have hsane : ((sw.instances.binList b).getD s
                default).id.instance_id ≠ ((sw.instances.binList i.bin).getD i.slot default).id.instance_id := by
              intro he
              rw [he] at hsmap
              rw [hamap] at hsmap
              simp at hsmap
              exact hbb hsmap.1.symm
            by_cases hlast : i.slot + 1 = (sw.instances.binList i.bin).length
            · rw [if_pos hlast]
              refine ⟨?_, ?_⟩
              · rw [SlotMap.associate_entries_length]
                exact hsklt
              · rw [SlotMap.associate_getD_other _ _ _ _ hsane]
                exact hsmap
            · have hylen : (sw.instances.binList i.bin).length - 1
                  < sw.instances.bin_len i.bin := by
                show _ < (sw.instances.binList i.bin).length
                omega
              obtain ⟨hyklt, hymap⟩ := hslot i.bin hbin _ hylen
              have hsyne : ((sw.instances.binList b).getD s
                  default).id.instance_id ≠ ((sw.instances.binList i.bin).getD ((sw.instances.binList i.bin).length - 1) default).id.instance_id := by
                intro he
                rw [he] at hsmap
                rw [hymap] at hsmap
                simp at hsmap
                exact hbb hsmap.1.symm
              rw [if_neg hlast]
              refine ⟨?_, ?_⟩
              · rw [SlotMap.associate_entries_length,
                  SlotMap.associate_entries_length]
                exact hsklt
              · rw [SlotMap.associate_getD_other _ _ _ _ hsyne,
                  SlotMap.associate_getD_other _ _ _ _ hsane]
                exact hsmap
          · exfalso
            have h0 : sw.instances.bin_len b = 0 := by
              show (sw.instances.bins.getD b []).length = 0
              rw [List.getD_eq_default _ _ (by omega)]
              rfl
            omega

/-- A unicast delivery preserves the representation invariant, provided the
handler never rewrites the id header of the instance it receives (ids are
installed by the Swarm alone). -/
theorem Inv_receive_instance (sw : Swarm) (p : Packet) (h : Handler) (w : World)
    (hInv : Inv sw)
    (hidp : ∀ m a wo, ((h m a wo).2.1).id.instance_id = a.id.instance_id) :
    Inv (sw.receive_instance p h w).1 := by
  rcases hio : sw.slot_map.indices_of p.recipient_id.instance_id
      p.recipient_id.version with _ | idx
  · rw [Swarm.receive_instance, hio]
    exact hInv
  · obtain ⟨hklen, hocc, hver⟩ := SlotMap.indices_of_some_inv _ _ _ _ hio
    have hlookup : sw.slot_map.indices_of_no_version_check
        p.recipient_id.instance_id = idx :=
      SlotMap.no_version_check_of_occ _ _ _ hocc
    have hent := hInv.2.1 p.recipient_id.instance_id hklen
    rw [entryOK, hocc] at hent
    obtain ⟨hvalid, hkeyat⟩ := hent
    have hvalid' : idx.slot < (sw.instances.binList idx.bin).length := hvalid
    rcases hh : h p.message (sw.instances.get idx) w with ⟨fate, a1, w1⟩
    have hid1 : a1.id.instance_id = (sw.instances.get idx).id.instance_id := by
      have hx := hidp p.message (sw.instances.get idx) w
      rw [hh] at hx
      exact hx
    have hInv1 : Inv { sw with instances := sw.instances.setAt idx a1 } :=
      Inv_setAt sw idx a1 hInv hvalid (by rw [hid1]; rfl)
    have hvalid2 : idx.slot <
        ({ sw with instances := sw.instances.setAt idx a1
          } : Swarm).instances.bin_len idx.bin := by
      show idx.slot < (sw.instances.setAt idx a1).bin_len idx.bin
      rw [Arena.bin_len_setAt]
      exact hvalid
    cases fate with
    | Live =>
      by_cases hcomp : a1.is_still_compact = true
      · have hred : (sw.receive_instance p h w).1 =
            { sw with instances := sw.instances.setAt idx a1 } := by
          rw [Swarm.receive_instance, hio]
          simp only [hh, hcomp, if_true]
        rw [hred]
        exact hInv1
      · have hcomp2 : a1.is_still_compact = false := by
          cases hcc : a1.is_still_compact
          · rfl
          · exact absurd hcc hcomp
        have hred : (sw.receive_instance p h w).1 =
            Swarm.resize_at_index
              { sw with instances := sw.instances.setAt idx a1 } idx := by
          rw [Swarm.receive_instance, hio]
          simp only [hh]
          rw [hcomp2]
          simp only [Bool.false_eq_true, if_false]
          rw [Swarm.resize]
          have hlk : ({ sw with instances := sw.instances.setAt idx a1
              } : Swarm).slot_map.indices_of_no_version_check
              p.recipient_id.instance_id = idx := hlookup
          rw [hlk]
        rw [hred]
        exact (Inv_resize_at_index _ idx hInv1 hvalid2).1
    | Die =>
      have hred : (sw.receive_instance p h w).1 =
          Swarm.remove_at_index
            { sw with instances := sw.instances.setAt idx a1 } idx
            p.recipient_id := by
        rw [Swarm.receive_instance, hio]
        simp only [hh]
        rw [Swarm.remove]
        have hlk : ({ sw with instances := sw.instances.setAt idx a1
            } : Swarm).slot_map.indices_of_no_version_check
            p.recipient_id.instance_id = idx := hlookup
        rw [hlk]
      have hb1 : (sw.instances.setAt idx a1).binList idx.bin =
          (sw.instances.binList idx.bin).set idx.slot a1 :=
        Arena.binList_setAt_same _ _ _
      have hrid : p.recipient_id.instance_id =
          ((({ sw with instances := sw.instances.setAt idx a1
            } : Swarm).instances.binList idx.bin).getD idx.slot
            default).id.instance_id := by
        show p.recipient_id.instance_id =
          (((sw.instances.setAt idx a1).binList idx.bin).getD idx.slot
            default).id.instance_id
        rw [hb1, getD_set_self _ _ _ _ hvalid', hid1]
        exact hkeyat.symm
      rw [hred]
      exact (Inv_remove_at_index _ idx p.recipient_id hInv1 hvalid2 hrid).1

/-- One broadcast loop iteration preserves the representation invariant
when the cursor addresses a populated slot and the handler never rewrites
ids. -/
theorem Inv_broadcast_step (h : Handler) (msg : Msg) (b slot k : Nat)
    (sw : Swarm) (w : World)
    (hInv : Inv sw)
    (hidp : ∀ m a wo, ((h m a wo).2.1).id.instance_id = a.id.instance_id)
    (hslot2 : slot < sw.instances.bin_len b) :
    Inv (Swarm.broadcast_step h msg b slot k sw w).1 := by
  have hslotlen : slot < (sw.instances.binList b).length := hslot2
  rcases hh : h msg (sw.instances.get ⟨b, slot⟩) w with ⟨fate, a1, w1⟩
  have hid1 : a1.id.instance_id =
      (sw.instances.get ⟨b, slot⟩).id.instance_id := by
    have hx := hidp msg (sw.instances.get ⟨b, slot⟩) w
    rw [hh] at hx
    exact hx
  have hInv1 : Inv { sw with instances := sw.instances.setAt ⟨b, slot⟩ a1 } :=
    Inv_setAt sw ⟨b, slot⟩ a1 hInv hslot2 (by rw [hid1]; rfl)
  have hvalid2 : (⟨b, slot⟩ : SlotIndices).slot <
      ({ sw with instances := sw.instances.setAt ⟨b, slot⟩ a1
        } : Swarm).instances.bin_len (⟨b, slot⟩ : SlotIndices).bin := by
    show slot < (sw.instances.setAt ⟨b, slot⟩ a1).bin_len b
    rw [show (sw.instances.setAt ⟨b, slot⟩ a1).bin_len b
        = sw.instances.bin_len b from Arena.bin_len_setAt _ _ _ _]
    exact hslot2
  cases fate with
  | Live =>
    by_cases hcomp : a1.is_still_compact = true
    · have hred : (Swarm.broadcast_step h msg b slot k sw w).1 =
          { sw with instances := sw.instances.setAt ⟨b, slot⟩ a1 } := by
        rw [Swarm.broadcast_step]
        simp only [hh, hcomp, if_true]
      rw [hred]
      exact hInv1
    · have hcomp2 : a1.is_still_compact = false := by
        cases hcc : a1.is_still_compact
        · rfl
        · exact absurd hcc hcomp
      have hred : (Swarm.broadcast_step h msg b slot k sw w).1 =
          Swarm.resize_at_index
            { sw with instances := sw.instances.setAt ⟨b, slot⟩ a1 }
            ⟨b, slot⟩ := by
        rw [Swarm.broadcast_step]
        simp only [hh]
        rw [hcomp2]
        simp only [Bool.false_eq_true, if_false]
        split
        · rfl
        · rfl
      rw [hred]
      exact (Inv_resize_at_index _ ⟨b, slot⟩ hInv1 hvalid2).1
  | Die =>
    have hb1 : (sw.instances.setAt ⟨b, slot⟩ a1).binList b =
        (sw.instances.binList b).set slot a1 :=
      Arena.binList_setAt_same2 _ _ _ _
    have hrid : a1.id.instance_id =
        ((({ sw with instances := sw.instances.setAt ⟨b, slot⟩ a1
          } : Swarm).instances.binList b).getD slot default).id.instance_id := by
      show a1.id.instance_id =
        (((sw.instances.setAt ⟨b, slot⟩ a1).binList b).getD slot
          default).id.instance_id
      rw [hb1, getD_set_self _ _ _ _ hslotlen]
    have hred : (Swarm.broadcast_step h msg b slot k sw w).1 =
        Swarm.remove_at_index
          { sw with instances := sw.instances.setAt ⟨b, slot⟩ a1 }
          ⟨b, slot⟩ a1.id := by
      rw [Swarm.broadcast_step]
      simp only [hh]
      split
      · rfl
      · rfl
    rw [hred]
    exact (Inv_remove_at_index _ ⟨b, slot⟩ a1.id hInv1 hvalid2 hrid).1

/-- The per-bin broadcast loop preserves the representation invariant. -/
theorem Inv_broadcastBin (h : Handler) (msg : Msg) (b : Nat)
    (hidp : ∀ m a wo, ((h m a wo).2.1).id.instance_id = a.id.instance_id) :
    ∀ fuel slot k sw w, fuel = k - slot →
      k ≤ (sw.instances.binList b).length → Inv sw →
      Inv (Swarm.broadcastBin h msg b fuel slot k sw w).1 := by
  intro fuel
  induction fuel with
  | zero =>
    intro slot k sw w _ _ hInv
    rw [Swarm.broadcastBin]
    exact hInv
  | succ n ih =>
    intro slot k sw w hf hk hInv
    have hs : slot < k := by omega
    have hslot2 : slot < sw.instances.bin_len b := by
      show slot < (sw.instances.binList b).length
      omega
    obtain ⟨hid, hoth, hcases⟩ := broadcast_step_effect h msg b slot k sw w hs hk
    have hstepInv := Inv_broadcast_step h msg b slot k sw w hInv hidp hslot2
    rcases hstep : Swarm.broadcast_step h msg b slot k sw w with
      ⟨sw2, w2, lid, s2, k2⟩
    rw [hstep] at hid hoth hcases hstepInv
    dsimp only at hid hoth hcases hstepInv
    have hgoal : Swarm.broadcastBin h msg b (n + 1) slot k sw w =
        ((Swarm.broadcastBin h msg b n s2 k2 sw2 w2).1,
         (Swarm.broadcastBin h msg b n s2 k2 sw2 w2).2.1,
         lid :: (Swarm.broadcastBin h msg b n s2 k2 sw2 w2).2.2) := by
      rw [Swarm.broadcastBin, hstep]
    rw [hgoal]
    rcases hcases with ⟨hs2, hk2, hle, _⟩ | ⟨hs2, hk2, hle, _⟩
    · exact ih s2 k2 sw2 w2 (by omega) (by rw [hk2]; exact hle) hstepInv
    · exact ih s2 k2 sw2 w2 (by omega) (by rw [hk2]; exact hle) hstepInv

/-- The broadcast walk over a snapshot of distinct bins with valid lengths
preserves the representation invariant. -/
theorem Inv_broadcastBins (h : Handler) (msg : Msg)
    (hidp : ∀ m a wo, ((h m a wo).2.1).id.instance_id = a.id.instance_id) :
    ∀ snapshot (sw : Swarm) (w : World),
      (∀ q ∈ snapshot, q.2 ≤ (sw.instances.binList q.1).length) →
      snapshot.Pairwise (fun q1 q2 => q1.1 ≠ q2.1) →
      Inv sw →
      Inv (Swarm.broadcastBins h msg snapshot sw w).1 := by
  intro snapshot
  induction snapshot with
  | nil =>
    intro sw w _ _ hInv
    rw [Swarm.broadcastBins]
    exact hInv
  | cons q rest ih =>
    intro sw w hlen hpw hInv
    rcases q with ⟨b, n⟩
    obtain ⟨permb, othb⟩ := broadcastBin_master h msg b n 0 n sw w (by omega)
      (hlen ⟨b, n⟩ (List.mem_cons_self _ _))
    have hbInv := Inv_broadcastBin h msg b hidp n 0 n sw w (by omega)
      (hlen ⟨b, n⟩ (List.mem_cons_self _ _)) hInv
    rw [Swarm.broadcastBins]
    rcases h1 : Swarm.broadcastBin h msg b n 0 n sw w with ⟨sw1, w1, log1⟩
    rw [h1] at othb hbInv
    dsimp only at othb hbInv
    have hne : ∀ q2 ∈ rest, q2.1 ≠ b := by
      intro q2 hq2
      exact fun hx => ((List.pairwise_cons.mp hpw).1 q2 hq2) hx.symm
    have hlen1 : ∀ q2 ∈ rest, q2.2 ≤ (sw1.instances.binList q2.1).length := by
      intro q2 hq2
      obtain ⟨t, htt⟩ := othb q2.1 (hne q2 hq2)
      rw [htt, List.length_append]
      have := hlen q2 (List.mem_cons_of_mem _ hq2)
      omega
    have ihh := ih sw1 w1 hlen1 (List.pairwise_cons.mp hpw).2 hbInv
    dsimp only
    rcases h2 : Swarm.broadcastBins h msg rest sw1 w1 with ⟨sw2, w2, log2⟩
    rw [h2] at ihh
    dsimp only at ihh
    dsimp only
    exact ihh

/-- Every dispatch (unicast or broadcast) preserves the representation
invariant, provided the handler never rewrites id headers. -/
theorem Inv_dispatch_packet (sw : Swarm) (p : Packet) (h : Handler) (w : World)
    (hInv : Inv sw)
    (hidp : ∀ m a wo, ((h m a wo).2.1).id.instance_id = a.id.instance_id) :
    Inv (sw.dispatch_packet p h w).1 := by
  rw [Swarm.dispatch_packet]
  by_cases hcnd : p.recipient_id.instance_id = broadcast_instance_id
  · rw [if_pos hcnd]
    have hmem : ∀ q ∈ sw.instances.populated_bin_indices_and_lens,
        q.2 ≤ (sw.instances.binList q.1).length := by
      intro q hq
      have h2 := (populatedFrom_mem sw.instances.bins 0 q hq).2.1
      rw [h2]
      exact Nat.le_refl _
    have hbInv := Inv_broadcastBins h p.message hidp
      (sw.instances.populated_bin_indices_and_lens) sw w hmem
      (populatedFrom_pairwise sw.instances.bins 0) hInv
    have hbInv2 : Inv (sw.receive_broadcast p h w).1 := by
      rw [Swarm.receive_broadcast]
      exact hbInv
    rcases hr : sw.receive_broadcast p h w with ⟨s1, w1, l1⟩
    rw [hr] at hbInv2
    dsimp only at hbInv2
    dsimp only
    exact hbInv2
  · rw [if_neg hcnd]
    exact Inv_receive_instance sw p h w hInv hidp

/-- C6: the count invariant P1/I3.  Starting from a well-formed Swarm,
`add_manually_with_id` at a freshly allocated (unoccupied) key and every
dispatch (unicast or broadcast) whose handler leaves the id headers
unchanged re-establish `instance_count() = Σ bin_lens = #occupied slot-map
entries`; the add increments `n_instances` by exactly one (removal inside a
dispatch decrements it by one and a resize leaves it unchanged, both
absorbed into the re-established equalities). -/
theorem instance_count_matches_bins_and_slot_map (sw : Swarm) (a : ActorState)
    (id : RawID) (p : Packet) (h : Handler) (w : World)
    (hInv : Inv sw)
    (hklen : id.instance_id < sw.slot_map.entries.length)
    (hocc : (sw.slot_map.entries.getD id.instance_id default).occ = none)
    (hidp : ∀ m a1 wo, ((h m a1 wo).2.1).id.instance_id = a1.id.instance_id) :
    ((sw.add_manually_with_id a id).instance_count
        = (sw.add_manually_with_id a id).instances.sumBinLens ∧
      (sw.add_manually_with_id a id).instance_count
        = (sw.add_manually_with_id a id).slot_map.occupiedCount ∧
      (sw.add_manually_with_id a id).instance_count = sw.instance_count + 1) ∧
    ((sw.dispatch_packet p h w).1.instance_count
        = (sw.dispatch_packet p h w).1.instances.sumBinLens ∧
      (sw.dispatch_packet p h w).1.instance_count
        = (sw.dispatch_packet p h w).1.slot_map.occupiedCount) := by
  obtain ⟨hadd, haddn⟩ := Inv_add_manually sw a id hInv hklen hocc
  have hdisp := Inv_dispatch_packet sw p h w hInv hidp
  exact ⟨⟨hadd.1.1, hadd.1.2, haddn⟩, hdisp.1.1, hdisp.1.2⟩

/-- Witness for C6: adding a fourth instance at the free key of a concrete
one-instance swarm, and dispatching a no-op `Live` unicast to it, both
re-establish the count equalities; the add bumps the count to two. -/
theorem instance_count_matches_bins_and_slot_map_witness :
    ((Swarm.add_manually_with_id exSwarm1F (exActor 1 16) ⟨7, 0, 1, 0⟩).instance_count
        = (Swarm.add_manually_with_id exSwarm1F (exActor 1 16) ⟨7, 0, 1, 0⟩).instances.sumBinLens ∧
      (Swarm.add_manually_with_id exSwarm1F (exActor 1 16) ⟨7, 0, 1, 0⟩).instance_count
        = (Swarm.add_manually_with_id exSwarm1F (exActor 1 16) ⟨7, 0, 1, 0⟩).slot_map.occupiedCount ∧
      (Swarm.add_manually_with_id exSwarm1F (exActor 1 16) ⟨7, 0, 1, 0⟩).instance_count = exSwarm1F.instance_count + 1) ∧
    ((Swarm.dispatch_packet exSwarm1F ⟨⟨7, 0, 0, 0⟩, 5⟩ exLiveHandler 0).1.instance_count
        = (Swarm.dispatch_packet exSwarm1F ⟨⟨7, 0, 0, 0⟩, 5⟩ exLiveHandler 0).1.instances.sumBinLens ∧
      (Swarm.dispatch_packet exSwarm1F ⟨⟨7, 0, 0, 0⟩, 5⟩ exLiveHandler 0).1.instance_count
        = (Swarm.dispatch_packet exSwarm1F ⟨⟨7, 0, 0, 0⟩, 5⟩ exLiveHandler 0).1.slot_map.occupiedCount) :=
  instance_count_matches_bins_and_slot_map exSwarm1F (exActor 1 16) ⟨7, 0, 1, 0⟩
    ⟨⟨7, 0, 0, 0⟩, 5⟩ exLiveHandler 0 (by decide) (by decide) (by decide)
    (fun _ _ _ => rfl)

end Kay
